import Mathlib

/-! Charlieplexed six-LED driver for the PIC12F508 (`main.c`).

A shallow embedding of `12F508_flash_6_LEDs.X/main.c`.

* The four global bytes (`gLEDs`, `gTRISGPIO`, `gTMR0_MSB`, `gPause`), the
  function-static `State` of `LED_refresh` and the special function registers
  `OPTION`, `TRISGPIO`, `GPIO` are the fields of `Machine`.  All are natural
  numbers; `% 256` is written wherever the C arithmetic on `unsigned char`
  can leave the byte range (`--State`, `--gPause`, `gLEDs <<= 1`).
* In `LED_refresh`, `GPIO` is modelled as the C program sees it: a byte
  variable whose reads return what was last written (the output latch).  On
  the chip a read of the port returns pin levels: `LED_refresh_port` takes the
  values returned by the two port reads of lines 168 and 171 as inputs, and
  `LED_refresh` is its special case in which both reads return the latch.
* Every assignment to a special function register appends an `Event` to
  `Machine.trace`, in program order, so that the order of the hardware writes
  and the register contents between two writes can be stated.
* `TMR0` is an input: each read of `TMR0` in the source takes its value from
  an argument of the embedded function.
* `CLRWDT()` has no effect on any modelled variable and is omitted.
-/

namespace Charlieplex

/-! ## Application constants (lines 60-78, 205) -/

def FSYS : Nat := 4000000
def FCYC : Nat := FSYS / 4
def TIMER0_COUNTS_UNTIL_ASSERT : Nat := 128
def TIMER0_PRESCALE : Nat := 64
def MAX_LED_STATES : Nat := 6
def TIMER0_ASSERTS_IN_ONE_SECOND : Nat := 2

/-- The quotient of line 66, before the range check of lines 70-78. -/
def POR_DELAY_unchecked : Nat :=
  FCYC / (TIMER0_ASSERTS_IN_ONE_SECOND * TIMER0_COUNTS_UNTIL_ASSERT * TIMER0_PRESCALE)

/-- The constant `POR_DELAY` after the `#if` / `#elif` range check. -/
def POR_DELAY : Nat :=
  if POR_DELAY_unchecked ≥ 256 then 255
  else if POR_DELAY_unchecked < 1 then 1
  else POR_DELAY_unchecked

def LED_STEP_DELAY : Nat := 64

/-- C's `~x` stored into an `unsigned char`. -/
def not8 (x : Nat) : Nat := 255 - x % 256

/-! ## Machine state -/

/-- The special function registers the program writes. -/
inductive Reg where
  | OPTION
  | TRISGPIO
  | GPIO
deriving DecidableEq, Repr

/-- One write to a special function register: the register written and the
contents of `TRISGPIO`, `GPIO` and of the shadow `gTRISGPIO` right after the
write. -/
structure Event where
  reg : Reg
  TRISGPIO : Nat
  GPIO : Nat
  gTRISGPIO : Nat
deriving DecidableEq, Repr

structure Machine where
  gLEDs : Nat
  gTRISGPIO : Nat
  gTMR0_MSB : Nat
  gPause : Nat
  /-- The `static unsigned char State` of `LED_refresh`. -/
  State : Nat
  OPTION : Nat
  TRISGPIO : Nat
  GPIO : Nat
  /-- Writes to special function registers so far, oldest first. -/
  trace : List Event
deriving DecidableEq, Repr

/-- The statement `TRISGPIO = v;`. -/
def setTris (m : Machine) (v : Nat) : Machine :=
  { m with
    TRISGPIO := v
    trace := m.trace ++ [{ reg := Reg.TRISGPIO, TRISGPIO := v, GPIO := m.GPIO,
                           gTRISGPIO := m.gTRISGPIO }] }

/-- The statement `GPIO = v;` (also the write half of `GPIO &= ..`, `GPIO |= ..`). -/
def setGpio (m : Machine) (v : Nat) : Machine :=
  { m with
    GPIO := v
    trace := m.trace ++ [{ reg := Reg.GPIO, TRISGPIO := m.TRISGPIO, GPIO := v,
                           gTRISGPIO := m.gTRISGPIO }] }

/-- The statement `OPTION = v;`. -/
def setOption (m : Machine) (v : Nat) : Machine :=
  { m with
    OPTION := v
    trace := m.trace ++ [{ reg := Reg.OPTION, TRISGPIO := m.TRISGPIO, GPIO := m.GPIO,
                           gTRISGPIO := m.gTRISGPIO }] }

/-- State at reset, before `main` runs: the C globals are zero, `State` has its
initialiser `MAX_LED_STATES`, `OPTION` and `TRISGPIO` have their reset value
`0xFF`; `gpio` is the content of the output latch. -/
def powerOn (gpio : Nat) : Machine :=
  { gLEDs := 0, gTRISGPIO := 0, gTMR0_MSB := 0, gPause := 0, State := MAX_LED_STATES,
    OPTION := 0xFF, TRISGPIO := 0xFF, GPIO := gpio, trace := [] }

/-! ## `LED_refresh` (lines 104-173) -/

/-- What the `switch` of `LED_refresh` leaves behind. -/
structure Selection where
  OutBits : Nat
  HighBits : Nat
  State : Nat
deriving DecidableEq, Repr

/-- Lines 111-162: `OutBits = 0; HighBits = 0; switch (--State) { ... }`. -/
def LED_switch (gLEDs State : Nat) : Selection :=
  let OutBits := 0b00000000
  let HighBits := 0b00000000
  let State := (State + 255) % 256
  match State with
  | 5 =>
    if gLEDs &&& 0x20 ≠ 0 then
      { HighBits := HighBits ||| (1 <<< 2), OutBits := not8 ((1 <<< 5) ||| (1 <<< 2)),
        State := State }
    else { HighBits := HighBits, OutBits := OutBits, State := State }
  | 4 =>
    if gLEDs &&& 0x10 ≠ 0 then
      { HighBits := HighBits ||| (1 <<< 5), OutBits := not8 ((1 <<< 5) ||| (1 <<< 2)),
        State := State }
    else { HighBits := HighBits, OutBits := OutBits, State := State }
  | 3 =>
    if gLEDs &&& 0x08 ≠ 0 then
      { HighBits := HighBits ||| (1 <<< 4), OutBits := not8 ((1 <<< 5) ||| (1 <<< 4)),
        State := State }
    else { HighBits := HighBits, OutBits := OutBits, State := State }
  | 2 =>
    if gLEDs &&& 0x04 ≠ 0 then
      { HighBits := HighBits ||| (1 <<< 5), OutBits := not8 ((1 <<< 5) ||| (1 <<< 4)),
        State := State }
    else { HighBits := HighBits, OutBits := OutBits, State := State }
  | 1 =>
    if gLEDs &&& 0x02 ≠ 0 then
      { HighBits := HighBits ||| (1 <<< 2), OutBits := not8 ((1 <<< 4) ||| (1 <<< 2)),
        State := State }
    else { HighBits := HighBits, OutBits := OutBits, State := State }
  | _ =>
    if gLEDs &&& 0x01 ≠ 0 then
      { HighBits := HighBits ||| (1 <<< 4), OutBits := not8 ((1 <<< 4) ||| (1 <<< 2)),
        State := MAX_LED_STATES }
    else { HighBits := HighBits, OutBits := OutBits, State := MAX_LED_STATES }

/-- Lines 164-172: the register writes that follow the `switch`. -/
def LED_drive (m : Machine) (OutBits HighBits : Nat) : Machine :=
  let m := { m with gTRISGPIO := m.gTRISGPIO ||| ((1 <<< 5) ||| (1 <<< 4) ||| (1 <<< 2)) }
  let m := setTris m m.gTRISGPIO
  if OutBits ≠ 0 then
    let m := setGpio m (m.GPIO &&& OutBits)
    let m := { m with gTRISGPIO := m.gTRISGPIO &&& OutBits }
    let m := setTris m m.gTRISGPIO
    setGpio m (m.GPIO ||| HighBits)
  else m

def LED_refresh (m : Machine) : Machine :=
  let s := LED_switch m.gLEDs m.State
  LED_drive { m with State := s.State } s.OutBits s.HighBits

/-- The machine after `n` consecutive calls of `LED_refresh`. -/
def refreshN : Nat → Machine → Machine
  | 0, m => m
  | n + 1, m => LED_refresh (refreshN n m)

/-- The events a call of `LED_refresh` appends to the trace. -/
def LED_events (m : Machine) : List Event :=
  (LED_refresh m).trace.drop m.trace.length

/-! ## `PIC_Init` (lines 178-201) -/

/-- The power-on delay loop of lines 186-194.  Each element of the list is one
pass of the loop body: the value `TMR0` returns in the test of line 189 and the
value it returns in the assignment of line 191 (read only when the test
succeeds).  The result is `none` when the samples run out before `gPause`
reaches zero. -/
def PIC_delay : Machine → List (Nat × Nat) → Option Machine
  | m, [] => if m.gPause ≠ 0 then none else some m
  | m, (t1, t2) :: ts =>
    if m.gPause ≠ 0 then
      if (t1 ^^^ m.gTMR0_MSB) &&& 0x80 ≠ 0 then
        PIC_delay { m with gTMR0_MSB := t2, gPause := (m.gPause + 255) % 256 } ts
      else PIC_delay m ts
    else some m

/-- The function `PIC_Init`; `t0` is the value read from `TMR0` in line 185. -/
def PIC_Init (m : Machine) (t0 : Nat) (ts : List (Nat × Nat)) : Option Machine :=
  let m := setOption m 0b11010101
  let m := { m with gTMR0_MSB := t0 }
  let m := { m with gPause := POR_DELAY }
  match PIC_delay m ts with
  | none => none
  | some m =>
    let m := setGpio m 0
    let m := { m with gTRISGPIO := 0b11111111 }
    some (setTris m m.gTRISGPIO)

/-! ## `main` (lines 206-232) -/

/-- Lines 222-227, the mutation of `gLEDs` when `gPause` runs out:
`gLEDs <<= 1; gLEDs &= 0x3F; if (!gLEDs) gLEDs = 1;`. -/
def main_animate (gLEDs : Nat) : Nat :=
  let gLEDs := (gLEDs <<< 1) % 256
  let gLEDs := gLEDs &&& 0x3F
  if gLEDs = 0 then 1 else gLEDs

/-- Lines 217-230, the part of the loop body after the call of `LED_refresh`.
`t1` is the value `TMR0` returns in the test of line 217, `t2` the value it
returns in the assignment of line 219 (read only when the test succeeds). -/
def main_tick (m : Machine) (t1 t2 : Nat) : Machine :=
  if (t1 ^^^ m.gTMR0_MSB) &&& 0x80 ≠ 0 then
    let m := { m with gTMR0_MSB := t2 }
    let m := { m with gPause := (m.gPause + 255) % 256 }
    if m.gPause = 0 then
      let m := { m with gLEDs := main_animate m.gLEDs }
      { m with gPause := LED_STEP_DELAY }
    else m
  else m

/-- One pass of the body of `for(;;)`, lines 216-230. -/
def main_iter (m : Machine) (t : Nat × Nat) : Machine :=
  main_tick (LED_refresh m) t.1 t.2

/-- The process loop run for as many passes as there are samples. -/
def main_loop (m : Machine) (ts : List (Nat × Nat)) : Machine :=
  ts.foldl main_iter m

/-- The function `main` with its endless loop cut after `loop.length` passes:
`t0` and `delay` feed `PIC_Init`, `t` is the value read from `TMR0` in line 212
and `loop` feeds the process loop. -/
def main (m : Machine) (t0 : Nat) (delay : List (Nat × Nat)) (t : Nat)
    (loop : List (Nat × Nat)) : Option Machine :=
  match PIC_Init m t0 delay with
  | none => none
  | some m =>
    let m := { m with gTMR0_MSB := t }
    let m := { m with gPause := LED_STEP_DELAY }
    some (main_loop m loop)

/-! ## Vocabulary of the specification -/

/-- Wiring of the six LEDs (header diagram, comments of the `switch`): the
pin that is driven high to light LED `i`. -/
def anode : Nat → Nat
  | 0 => 4
  | 1 => 2
  | 2 => 5
  | 3 => 4
  | 4 => 5
  | _ => 2

/-- The pin that is driven low to light LED `i`. -/
def cathode : Nat → Nat
  | 0 => 2
  | 1 => 4
  | 2 => 4
  | 3 => 5
  | 4 => 2
  | _ => 5

/-- The controlled pin that is neither terminal of LED `i`. -/
def sparePin (i : Nat) : Nat := (2 + 4 + 5) - anode i - cathode i

/-- Pin `p` is configured as an output: its bit in `TRISGPIO` is clear. -/
def isOutput (tris p : Nat) : Bool := !tris.testBit p

/-- Number of the controlled pins GP2, GP4, GP5 configured as outputs. -/
def numOutputs (tris : Nat) : Nat := ([2, 4, 5].filter (isOutput tris)).length

/-- LED `i` is driven: exactly its two pins are outputs, the third controlled
pin is an input, the anode latch bit is 1 and the cathode latch bit is 0. -/
def LEDdriven (i tris gpio : Nat) : Bool :=
  isOutput tris (anode i) && isOutput tris (cathode i) && !isOutput tris (sparePin i)
    && gpio.testBit (anode i) && !gpio.testBit (cathode i)

/-- LED `i` is driven in the register state of machine `m`. -/
def drives (i : Nat) (m : Machine) : Bool := LEDdriven i m.TRISGPIO m.GPIO

/-- The direction register holds the value of its shadow. -/
def inSync (m : Machine) : Prop := m.TRISGPIO = m.gTRISGPIO

/-- LED `i` is forward-driven: its anode pin is an output at 1 and its cathode
pin an output at 0 (whatever the third pin does). -/
def forwardDriven (i tris gpio : Nat) : Bool :=
  isOutput tris (anode i) && gpio.testBit (anode i)
    && isOutput tris (cathode i) && !gpio.testBit (cathode i)

/-- Number of LEDs forward-driven in a hardware state. -/
def numForward (tris gpio : Nat) : Nat :=
  ([0, 1, 2, 3, 4, 5].filter (fun i => forwardDriven i tris gpio)).length

/-- All three controlled pins are high-impedance inputs. -/
def allHighZ (tris : Nat) : Bool := tris.testBit 2 && tris.testBit 4 && tris.testBit 5

/-- Index of the bit of `gLEDs` named in the `if` of the `case` that
`switch (--State)` selects when the stored counter is `State`. -/
def testedBit (State : Nat) : Nat :=
  match (State + 255) % 256 with
  | 5 => 5
  | 4 => 4
  | 3 => 3
  | 2 => 2
  | 1 => 1
  | _ => 0

/-- The calls, among the six that start at machine `m`, that end with LED `i`
driven (call `k` is the `k+1`-st). -/
def callsDriving (i : Nat) (m : Machine) : List Nat :=
  (List.range 6).filter
    (fun k => drives i (refreshN (k + 1) m))

/-- The calls, among the six that start at machine `m`, that test bit `i`. -/
def callsTesting (i : Nat) (m : Machine) : List Nat :=
  (List.range 6).filter (fun k => testedBit (refreshN k m).State = i)

/-- Which LED, if any, the register state of machine `m` drives. -/
def drivenLED (m : Machine) : Option Nat :=
  (List.range 6).find? (fun i => drives i m)

/-- What each of the next `n` calls of `LED_refresh` ends up driving. -/
def driveList : Nat → Machine → List (Option Nat)
  | 0, _ => []
  | n + 1, m =>
    drivenLED (LED_refresh m) :: driveList n (LED_refresh m)

/-- The end-to-end scenario of the specification: the power-on state with the
mask `0b000101` (LEDs 0 and 2 requested). -/
def scenario : Machine := { powerOn 0 with gLEDs := 0b000101 }

/-- Every write to `TRISGPIO` recorded in `l` wrote the value the shadow
`gTRISGPIO` had at that moment. -/
def Mirrored (l : List Event) : Prop :=
  ∀ e ∈ l, e.reg = Reg.TRISGPIO → e.TRISGPIO = e.gTRISGPIO

/-! ## Vocabulary for the animator -/

/-- The animator's step applied `n` times. -/
def animateN : Nat → Nat → Nat
  | 0, g => g
  | n + 1, g => main_animate (animateN n g)

/-- The specification's rotation, from its words "rotate left by one bit
position within a 6-bit field (bit 5 wraps to bit 0)". -/
def spec_rotateLeft6 (m : Nat) : Nat := ((m <<< 1) &&& 0x3F) ||| ((m >>> 5) &&& 1)

/-- The specification's step, from its words: rotate, "then, if the result is
zero, force it to 1". -/
def spec_rotateStep (m : Nat) : Nat :=
  if spec_rotateLeft6 m = 0 then 1 else spec_rotateLeft6 m

/-- The test of line 217, `(TMR0 ^ gTMR0_MSB) & 0x80`, for the sample `t1`. -/
def detectsTick (m : Machine) (t1 : Nat) : Bool :=
  decide ((t1 ^^^ m.gTMR0_MSB) &&& 0x80 ≠ 0)

/-- Number of passes of the process loop, run from `m` on the samples `ts`,
in which the test of line 217 succeeds. -/
def ticksDetected : Machine → List (Nat × Nat) → Nat
  | _, [] => 0
  | m, t :: ts => (if detectsTick m t.1 then 1 else 0) + ticksDetected (main_iter m t) ts

/-- Samples in which bit 7 of `TMR0` toggles on every pass: `n` passes, each
detecting a tick when started with bit 7 of `gTMR0_MSB` clear. -/
def toggling (n : Nat) : List (Nat × Nat) :=
  (List.range n).map (fun k => if k % 2 = 0 then (0x80, 0x80) else (0x00, 0x00))

/-- A machine just after a step of the mask: `gLEDs = 1`, `gPause = 64`. -/
def afterStep : Machine := { powerOn 0 with gLEDs := 1, gPause := LED_STEP_DELAY }

/-! ## Vocabulary for the initialisation, the reachable masks and the wiring -/

/-- Number of passes over the samples `ts` in which bit 7 of the first read
differs from bit 7 of the remembered sample; the remembered sample starts as
`msb` and is replaced by the second read on every such pass. -/
def togglesSeen : Nat → List (Nat × Nat) → Nat
  | _, [] => 0
  | msb, (t1, t2) :: ts =>
    if (t1 ^^^ msb) &&& 0x80 ≠ 0 then 1 + togglesSeen t2 ts else togglesSeen msb ts

/-- The masks with at most one of the six bits set. -/
def walkingMasks : List Nat := [0, 1, 2, 4, 8, 16, 32]

/-- The value `m AND -m`, the lowest set bit of the byte `m`, with `-m` the
two's complement of `m` in eight bits. -/
def lowestSetBit (m : Nat) : Nat := m &&& ((256 - m % 256) % 256)

/-- The selection the `switch` makes in the slot of mask bit `b` when only
that bit is requested (the stored counter is then `b + 1`). -/
def wiringOf (b : Nat) : Selection := LED_switch (1 <<< b) (b + 1)

/-- The controlled pins whose bit is set in `HighBits`. -/
def highPins (s : Selection) : List Nat := [2, 4, 5].filter (fun p => s.HighBits.testBit p)

/-- The controlled pins whose bit is clear in `OutBits`: those made outputs. -/
def outputPins (s : Selection) : List Nat := [2, 4, 5].filter (fun p => !s.OutBits.testBit p)

/-- The pins made outputs that are not written high. -/
def lowPins (s : Selection) : List Nat :=
  (outputPins s).filter (fun p => !s.HighBits.testBit p)

/-- The six ordered pairs of distinct pins from GP2, GP4, GP5. -/
def orderedPairs : List (Nat × Nat) := [(2, 4), (2, 5), (4, 2), (4, 5), (5, 2), (5, 4)]

/-- The machine on entry to the process loop when `main` starts from the
power-on state and bit 7 of `TMR0` toggles on every pass of the delay loop. -/
def atLoopEntry : Machine :=
  { gLEDs := 0, gTRISGPIO := 0b11111111, gTMR0_MSB := 0, gPause := LED_STEP_DELAY,
    State := MAX_LED_STATES, OPTION := 0b11010101, TRISGPIO := 0b11111111, GPIO := 0,
    trace :=
      [{ reg := Reg.OPTION, TRISGPIO := 0xFF, GPIO := 0, gTRISGPIO := 0 },
       { reg := Reg.GPIO, TRISGPIO := 0xFF, GPIO := 0, gTRISGPIO := 0 },
       { reg := Reg.TRISGPIO, TRISGPIO := 0b11111111, GPIO := 0, gTRISGPIO := 0b11111111 }] }

/-- A machine about to test bit 0 of the mask `0b000101`, with GP0 configured as
an output at 1 and the direction register equal to its shadow. -/
def busyGP0 : Machine :=
  { scenario with
    State := 1
    GPIO := 0b00000001
    gTRISGPIO := 0b11111110
    TRISGPIO := 0b11111110 }

/-! ## Port reads as inputs -/

/-- Lines 164-172 with the two reads of the port register as inputs: `r1` is
the value the read of `GPIO` returns in `GPIO &= OutBits` (line 168) and `r2`
the value it returns in `GPIO |= HighBits` (line 171).  On the PIC12F508 a read
of `GPIO` returns the levels of the pins, which for a pin configured as an
input is set from outside. -/
def LED_drive_port (m : Machine) (OutBits HighBits r1 r2 : Nat) : Machine :=
  let m := { m with gTRISGPIO := m.gTRISGPIO ||| ((1 <<< 5) ||| (1 <<< 4) ||| (1 <<< 2)) }
  let m := setTris m m.gTRISGPIO
  if OutBits ≠ 0 then
    let m := setGpio m (r1 &&& OutBits)
    let m := { m with gTRISGPIO := m.gTRISGPIO &&& OutBits }
    let m := setTris m m.gTRISGPIO
    setGpio m (r2 ||| HighBits)
  else m

/-- The function `LED_refresh` with the two port reads as inputs. -/
def LED_refresh_port (m : Machine) (r1 r2 : Nat) : Machine :=
  let s := LED_switch m.gLEDs m.State
  LED_drive_port { m with State := s.State } s.OutBits s.HighBits r1 r2

/-- The events a call of `LED_refresh_port` appends to the trace. -/
def LED_events_port (m : Machine) (r1 r2 : Nat) : List Event :=
  (LED_refresh_port m r1 r2).trace.drop m.trace.length

/-- A machine about to test bit 0 of the mask `0b000101`, with every pin an
input and the latch at 0, as `PIC_Init` leaves them. -/
def inputGP0 : Machine :=
  { scenario with
    State := 1
    gTRISGPIO := 0b11111111
    TRISGPIO := 0b11111111 }

end Charlieplex

namespace Charlieplex

/-! ## Auxiliary facts about `LED_refresh` -/

theorem and_bit_ne_zero (g i : Nat) : g &&& 2 ^ i ≠ 0 ↔ g.testBit i = true := by
  rw [Nat.and_two_pow]
  cases g.testBit i <;> simp

theorem testedBit_lt (s : Nat) : testedBit s < 6 := by
  unfold testedBit
  split <;> decide

theorem testedBit_of_range (s : Nat) (h1 : 1 ≤ s) (h6 : s ≤ 6) : testedBit s = s - 1 := by
  interval_cases s <;> rfl

/-- The `switch` in closed form, for every value of the mask and of the counter. -/
theorem LED_switch_eq (g s : Nat) :
    LED_switch g s =
      if g.testBit (testedBit s) = true then
        { OutBits := 255 - (2 ^ anode (testedBit s) + 2 ^ cathode (testedBit s)),
          HighBits := 2 ^ anode (testedBit s),
          State := if testedBit s = 0 then 6 else testedBit s }
      else
        { OutBits := 0, HighBits := 0, State := if testedBit s = 0 then 6 else testedBit s } := by
  have e5 := and_bit_ne_zero g 5
  have e4 := and_bit_ne_zero g 4
  have e3 := and_bit_ne_zero g 3
  have e2 := and_bit_ne_zero g 2
  have e1 := and_bit_ne_zero g 1
  have e0 := and_bit_ne_zero g 0
  norm_num at e5 e4 e3 e2 e1 e0
  unfold LED_switch testedBit
  simp only []
  split <;> simp_all [anode, cathode, not8, MAX_LED_STATES]

theorem outBits_ne_zero (b : Nat) (hb : b < 6) :
    255 - (2 ^ anode b + 2 ^ cathode b) ≠ 0 := by
  interval_cases b <;> simp [anode, cathode]

/-- The writes of a lit slot. -/
theorem LED_drive_lit (m : Machine) (O H : Nat) (h : O ≠ 0) :
    LED_drive m O H =
      { m with
        gTRISGPIO := (m.gTRISGPIO ||| 0x34) &&& O
        TRISGPIO := (m.gTRISGPIO ||| 0x34) &&& O
        GPIO := (m.GPIO &&& O) ||| H
        trace := m.trace ++
          [{ reg := Reg.TRISGPIO, TRISGPIO := m.gTRISGPIO ||| 0x34, GPIO := m.GPIO,
             gTRISGPIO := m.gTRISGPIO ||| 0x34 },
           { reg := Reg.GPIO, TRISGPIO := m.gTRISGPIO ||| 0x34, GPIO := m.GPIO &&& O,
             gTRISGPIO := m.gTRISGPIO ||| 0x34 },
           { reg := Reg.TRISGPIO, TRISGPIO := (m.gTRISGPIO ||| 0x34) &&& O,
             GPIO := m.GPIO &&& O, gTRISGPIO := (m.gTRISGPIO ||| 0x34) &&& O },
           { reg := Reg.GPIO, TRISGPIO := (m.gTRISGPIO ||| 0x34) &&& O,
             GPIO := (m.GPIO &&& O) ||| H, gTRISGPIO := (m.gTRISGPIO ||| 0x34) &&& O }] } := by
  simp [LED_drive, setTris, setGpio, h]

/-- The single write of an idle slot. -/
theorem LED_drive_idle (m : Machine) (H : Nat) :
    LED_drive m 0 H =
      { m with
        gTRISGPIO := m.gTRISGPIO ||| 0x34
        TRISGPIO := m.gTRISGPIO ||| 0x34
        trace := m.trace ++
          [{ reg := Reg.TRISGPIO, TRISGPIO := m.gTRISGPIO ||| 0x34, GPIO := m.GPIO,
             gTRISGPIO := m.gTRISGPIO ||| 0x34 }] } := by
  simp [LED_drive, setTris]

theorem LED_refresh_lit (m : Machine) (h : m.gLEDs.testBit (testedBit m.State) = true) :
    LED_refresh m =
      LED_drive { m with State := if testedBit m.State = 0 then 6 else testedBit m.State }
        (255 - (2 ^ anode (testedBit m.State) + 2 ^ cathode (testedBit m.State)))
        (2 ^ anode (testedBit m.State)) := by
  unfold LED_refresh
  rw [LED_switch_eq, if_pos h]

theorem LED_refresh_idle (m : Machine) (h : m.gLEDs.testBit (testedBit m.State) = false) :
    LED_refresh m =
      LED_drive { m with State := if testedBit m.State = 0 then 6 else testedBit m.State } 0 0 := by
  unfold LED_refresh
  rw [LED_switch_eq, if_neg (by simp [h])]

theorem LED_refresh_driven (m : Machine) (i : Nat) (hi : i < 6) :
    drives i (LED_refresh m) = true
      ↔ (i = testedBit m.State ∧ m.gLEDs.testBit i = true) := by
  have hb := testedBit_lt m.State
  cases hg : m.gLEDs.testBit (testedBit m.State)
  · rw [LED_refresh_idle m hg, LED_drive_idle]
    have hn : ¬ (i = testedBit m.State ∧ m.gLEDs.testBit i = true) := by
      rintro ⟨rfl, h⟩
      simp [hg] at h
    simp only [hn, iff_false]
    interval_cases i <;>
      simp +decide [drives, LEDdriven, isOutput, anode, cathode, sparePin, Nat.testBit_and,
        Nat.testBit_or]
  · rw [LED_refresh_lit m hg, LED_drive_lit _ _ _ (outBits_ne_zero _ hb)]
    generalize testedBit m.State = b at hb hg ⊢
    interval_cases b <;> interval_cases i <;>
      simp +decide [drives, LEDdriven, isOutput, anode, cathode, sparePin, Nat.testBit_and,
        Nat.testBit_or, hg]

theorem LED_refresh_State (m : Machine) :
    (LED_refresh m).State = if testedBit m.State = 0 then 6 else testedBit m.State := by
  cases hg : m.gLEDs.testBit (testedBit m.State)
  · rw [LED_refresh_idle m hg, LED_drive_idle]
  · rw [LED_refresh_lit m hg, LED_drive_lit _ _ _ (outBits_ne_zero _ (testedBit_lt _))]

theorem LED_refresh_gLEDs (m : Machine) : (LED_refresh m).gLEDs = m.gLEDs := by
  cases hg : m.gLEDs.testBit (testedBit m.State)
  · rw [LED_refresh_idle m hg, LED_drive_idle]
  · rw [LED_refresh_lit m hg, LED_drive_lit _ _ _ (outBits_ne_zero _ (testedBit_lt _))]

theorem refreshN_gLEDs (k : Nat) (m : Machine) : (refreshN k m).gLEDs = m.gLEDs := by
  induction k with
  | zero => rfl
  | succ k ih => rw [refreshN, LED_refresh_gLEDs, ih]

theorem refreshN_State (k : Nat) (m : Machine) (h1 : 1 ≤ m.State) (h6 : m.State ≤ 6) :
    (refreshN k m).State = (m.State + 5 * k - 1) % 6 + 1 := by
  induction k with
  | zero =>
    simp only [refreshN]
    omega
  | succ k ih =>
    rw [refreshN, LED_refresh_State, testedBit_of_range _ (by omega) (by omega), ih]
    split <;> omega

theorem refreshN_driven (k : Nat) (m : Machine) (i : Nat) (hi : i < 6) :
    drives i (refreshN (k + 1) m)
      = decide (i = testedBit (refreshN k m).State ∧ m.gLEDs.testBit i = true) := by
  rw [Bool.eq_iff_iff, refreshN, LED_refresh_driven _ _ hi, refreshN_gLEDs]
  simp

/-! ## The multiplexing scheduler -/

/-- Claim C1. For every mask held fixed and every stored slot counter in 1..6,
six consecutive calls of `LED_refresh` test each of the six mask bits exactly
once; LED `i` is driven at the end of exactly one of the six calls when bit `i`
of the mask is 1 and of none when it is 0, namely of the call that tests bit
`i`; and no call ends with two different LEDs driven. -/
theorem six_calls_drive_each_requested_LED_once (m : Machine)
    (h1 : 1 ≤ m.State) (h6 : m.State ≤ 6) :
    (∀ i, i < 6 → (callsTesting i m).length = 1) ∧
    (∀ i, i < 6 → (callsDriving i m).length = if m.gLEDs.testBit i = true then 1 else 0) ∧
    (∀ k i, k < 6 → i < 6 →
      (drives i (refreshN (k + 1) m) = true
        ↔ (i = testedBit (refreshN k m).State ∧ m.gLEDs.testBit i = true))) ∧
    (∀ k i j, k < 6 → i < 6 → j < 6 →
      drives i (refreshN (k + 1) m) = true →
      drives j (refreshN (k + 1) m) = true → i = j) := by
  have hS := fun k => refreshN_State k m h1 h6
  refine ⟨?_, ?_, ?_, ?_⟩
  · intro i hi
    simp only [callsTesting, hS]
    generalize m.State = s at h1 h6
    interval_cases s <;> interval_cases i <;> decide
  · intro i hi
    simp only [callsDriving, refreshN_driven _ _ _ hi, hS]
    generalize m.State = s at h1 h6
    generalize m.gLEDs.testBit i = b
    interval_cases s <;> interval_cases i <;> cases b <;> decide
  · intro k i _ hi
    rw [refreshN_driven _ _ _ hi]
    simp
  · intro k i j _ hi hj
    rw [refreshN_driven _ _ _ hi, refreshN_driven _ _ _ hj]
    simp only [decide_eq_true_eq]
    rintro ⟨h, _⟩ ⟨h', _⟩
    rw [h, h']

/-- Witness of claim C1: the mask `0b000101` from the power-on state.  The six
calls drive nothing, nothing, nothing, LED2, nothing, LED0. -/
theorem six_calls_scenario :
    (1 ≤ scenario.State ∧ scenario.State ≤ 6) ∧
    driveList 6 scenario = [none, none, none, some 2, none, some 0] ∧
    ((∀ i, i < 6 → (callsTesting i scenario).length = 1) ∧
     (∀ i, i < 6 →
        (callsDriving i scenario).length = if scenario.gLEDs.testBit i = true then 1 else 0) ∧
     (∀ k i, k < 6 → i < 6 →
        (drives i (refreshN (k + 1) scenario) = true
          ↔ (i = testedBit (refreshN k scenario).State ∧ scenario.gLEDs.testBit i = true))) ∧
     (∀ k i j, k < 6 → i < 6 → j < 6 →
        drives i (refreshN (k + 1) scenario) = true →
        drives j (refreshN (k + 1) scenario) = true →
        i = j)) :=
  ⟨by decide, by decide,
    six_calls_drive_each_requested_LED_once scenario (by decide) (by decide)⟩

theorem LED_events_idle (m : Machine) (h : m.gLEDs.testBit (testedBit m.State) = false) :
    LED_events m =
      [{ reg := Reg.TRISGPIO, TRISGPIO := m.gTRISGPIO ||| 0x34, GPIO := m.GPIO,
         gTRISGPIO := m.gTRISGPIO ||| 0x34 }] := by
  unfold LED_events
  rw [LED_refresh_idle m h, LED_drive_idle]
  simp

theorem LED_events_lit (m : Machine) (h : m.gLEDs.testBit (testedBit m.State) = true) :
    LED_events m =
      [{ reg := Reg.TRISGPIO, TRISGPIO := m.gTRISGPIO ||| 0x34, GPIO := m.GPIO,
         gTRISGPIO := m.gTRISGPIO ||| 0x34 },
       { reg := Reg.GPIO, TRISGPIO := m.gTRISGPIO ||| 0x34,
         GPIO := m.GPIO
           &&& (255 - (2 ^ anode (testedBit m.State) + 2 ^ cathode (testedBit m.State))),
         gTRISGPIO := m.gTRISGPIO ||| 0x34 },
       { reg := Reg.TRISGPIO,
         TRISGPIO := (m.gTRISGPIO ||| 0x34)
           &&& (255 - (2 ^ anode (testedBit m.State) + 2 ^ cathode (testedBit m.State))),
         GPIO := m.GPIO
           &&& (255 - (2 ^ anode (testedBit m.State) + 2 ^ cathode (testedBit m.State))),
         gTRISGPIO := (m.gTRISGPIO ||| 0x34)
           &&& (255 - (2 ^ anode (testedBit m.State) + 2 ^ cathode (testedBit m.State))) },
       { reg := Reg.GPIO,
         TRISGPIO := (m.gTRISGPIO ||| 0x34)
           &&& (255 - (2 ^ anode (testedBit m.State) + 2 ^ cathode (testedBit m.State))),
         GPIO := (m.GPIO
           &&& (255 - (2 ^ anode (testedBit m.State) + 2 ^ cathode (testedBit m.State))))
           ||| 2 ^ anode (testedBit m.State),
         gTRISGPIO := (m.gTRISGPIO ||| 0x34)
           &&& (255 - (2 ^ anode (testedBit m.State) + 2 ^ cathode (testedBit m.State))) }] := by
  unfold LED_events
  rw [LED_refresh_lit m h, LED_drive_lit _ _ _ (outBits_ne_zero _ (testedBit_lt _))]
  simp

theorem LED_refresh_trace (m : Machine) : (LED_refresh m).trace = m.trace ++ LED_events m := by
  cases hg : m.gLEDs.testBit (testedBit m.State)
  · rw [LED_events_idle m hg, LED_refresh_idle m hg, LED_drive_idle]
  · rw [LED_events_lit m hg, LED_refresh_lit m hg,
      LED_drive_lit _ _ _ (outBits_ne_zero _ (testedBit_lt _))]

theorem filter_six_unique (f0 f1 f2 f3 f4 f5 : Bool) :
    ([f0, f1, f2, f3, f4, f5].filter id).length ≤ 1 →
      (f0 = true → f1 = false ∧ f2 = false ∧ f3 = false ∧ f4 = false ∧ f5 = false) ∧
      (f1 = true → f2 = false ∧ f3 = false ∧ f4 = false ∧ f5 = false) ∧
      (f2 = true → f3 = false ∧ f4 = false ∧ f5 = false) ∧
      (f3 = true → f4 = false ∧ f5 = false) ∧
      (f4 = true → f5 = false) := by
  cases f0 <;> cases f1 <;> cases f2 <;> cases f3 <;> cases f4 <;> cases f5 <;> decide

theorem numForward_eq (t g : Nat) :
    numForward t g =
      ([forwardDriven 0 t g, forwardDriven 1 t g, forwardDriven 2 t g, forwardDriven 3 t g,
        forwardDriven 4 t g, forwardDriven 5 t g].filter id).length := by
  unfold numForward
  cases h0 : forwardDriven 0 t g <;> cases h1 : forwardDriven 1 t g <;>
    cases h2 : forwardDriven 2 t g <;> cases h3 : forwardDriven 3 t g <;>
    cases h4 : forwardDriven 4 t g <;> cases h5 : forwardDriven 5 t g <;>
    simp [List.filter, h0, h1, h2, h3, h4, h5]

theorem forward_unique (t g i j : Nat) (h : numForward t g ≤ 1) (hi : i < 6) (hj : j < 6)
    (fi : forwardDriven i t g = true) (fj : forwardDriven j t g = true) : i = j := by
  rw [numForward_eq] at h
  have u := filter_six_unique _ _ _ _ _ _ h
  interval_cases i <;> interval_cases j <;> first | rfl | simp_all

theorem outputs_not_all (t : Nat) (h : numOutputs t ≤ 2) :
    ¬ (isOutput t 2 = true ∧ isOutput t 4 = true ∧ isOutput t 5 = true) := by
  rintro ⟨h2, h4, h5⟩
  simp [numOutputs, List.filter_cons, h2, h4, h5] at h

theorem pairs_not_both (t i j : Nat) (h : numOutputs t ≤ 2) (hi : i < 6) (hj : j < 6)
    (hij : sparePin i ≠ sparePin j) :
    ¬ (isOutput t (anode i) = true ∧ isOutput t (cathode i) = true ∧
        isOutput t (anode j) = true ∧ isOutput t (cathode j) = true) := by
  have hn := outputs_not_all t h
  interval_cases i <;> interval_cases j <;>
    first
      | exact absurd rfl hij
      | (simp only [anode, cathode]; tauto)

/-- Claim C2. The hardware states that the individual writes of one call of
`LED_refresh` produce, for every mask, slot counter and pre-state: in each of
them (the intermediate ones included) at most two of GP2, GP4, GP5 are outputs
and at most one LED is forward-driven.  Hence no state has two different LEDs
forward-driven, and no state has the terminal pins of two LEDs on different
pin pairs all configured as outputs. -/
theorem no_two_LEDs_during_refresh (m : Machine) :
    (LED_refresh m).trace = m.trace ++ LED_events m ∧
    LED_events m ≠ [] ∧
    ∀ e ∈ LED_events m,
      numOutputs e.TRISGPIO ≤ 2 ∧ numForward e.TRISGPIO e.GPIO ≤ 1 ∧
      (∀ i j, i < 6 → j < 6 → forwardDriven i e.TRISGPIO e.GPIO = true →
        forwardDriven j e.TRISGPIO e.GPIO = true → i = j) ∧
      (∀ i j, i < 6 → j < 6 → sparePin i ≠ sparePin j →
        ¬ (isOutput e.TRISGPIO (anode i) = true ∧ isOutput e.TRISGPIO (cathode i) = true ∧
            isOutput e.TRISGPIO (anode j) = true ∧ isOutput e.TRISGPIO (cathode j) = true)) := by
  have key : ∀ e ∈ LED_events m,
      numOutputs e.TRISGPIO ≤ 2 ∧ numForward e.TRISGPIO e.GPIO ≤ 1 := by
    have hb := testedBit_lt m.State
    cases hg : m.gLEDs.testBit (testedBit m.State)
    · rw [LED_events_idle m hg]
      simp only [numOutputs, numForward, forwardDriven, isOutput, anode, cathode,
        Nat.testBit_and, Nat.testBit_or, List.filter_cons, List.mem_singleton, forall_eq]
      simp [Nat.testBit]
    · rw [LED_events_lit m hg]
      generalize testedBit m.State = b at hb hg ⊢
      interval_cases b <;>
      simp only [numOutputs, numForward, forwardDriven, isOutput, anode, cathode,
        Nat.testBit_and, Nat.testBit_or, List.filter_cons, List.mem_cons, List.mem_singleton,
        forall_eq_or_imp, forall_eq] <;>
      simp [Nat.testBit]
  refine ⟨LED_refresh_trace m, ?_, ?_⟩
  · cases hg : m.gLEDs.testBit (testedBit m.State)
    · rw [LED_events_idle m hg]
      simp
    · rw [LED_events_lit m hg]
      simp
  · intro e he
    obtain ⟨ho, hf⟩ := key e he
    exact ⟨ho, hf, fun i j hi hj fi fj => forward_unique _ _ i j hf hi hj fi fj,
      fun i j hi hj hij => pairs_not_both _ i j ho hi hj hij⟩

/-- Claim C3. The order of the hardware writes of one call of `LED_refresh`,
for every mask, slot counter and pre-state.  The first write is a write of
`TRISGPIO` with bits 2, 4 and 5 all 1, and every other write of the call comes
after it.  In an idle slot it is the only write.  In a lit slot the writes
are, in this order: `TRISGPIO` with all three pins high-impedance; `GPIO` with
both participating latch bits 0; `TRISGPIO` with the two participating pins
outputs and the third pin an input; `GPIO` with the high pin at 1 and the low
pin at 0. -/
theorem refresh_write_order (m : Machine) :
    (∃ e rest, LED_events m = e :: rest ∧ e.reg = Reg.TRISGPIO ∧
      allHighZ e.TRISGPIO = true ∧ e.GPIO = m.GPIO) ∧
    (m.gLEDs.testBit (testedBit m.State) = false →
      ∃ e1, LED_events m = [e1] ∧ e1.reg = Reg.TRISGPIO ∧ allHighZ e1.TRISGPIO = true) ∧
    (m.gLEDs.testBit (testedBit m.State) = true →
      ∃ e1 e2 e3 e4, LED_events m = [e1, e2, e3, e4] ∧
        (e1.reg = Reg.TRISGPIO ∧ allHighZ e1.TRISGPIO = true) ∧
        (e2.reg = Reg.GPIO ∧ allHighZ e2.TRISGPIO = true ∧
          e2.GPIO.testBit (anode (testedBit m.State)) = false ∧
          e2.GPIO.testBit (cathode (testedBit m.State)) = false) ∧
        (e3.reg = Reg.TRISGPIO ∧ e3.GPIO = e2.GPIO ∧
          isOutput e3.TRISGPIO (anode (testedBit m.State)) = true ∧
          isOutput e3.TRISGPIO (cathode (testedBit m.State)) = true ∧
          isOutput e3.TRISGPIO (sparePin (testedBit m.State)) = false) ∧
        (e4.reg = Reg.GPIO ∧ e4.TRISGPIO = e3.TRISGPIO ∧
          e4.GPIO.testBit (anode (testedBit m.State)) = true ∧
          e4.GPIO.testBit (cathode (testedBit m.State)) = false)) := by
  have hz : allHighZ (m.gTRISGPIO ||| 0x34) = true := by
    simp only [allHighZ, Nat.testBit_or]
    simp [Nat.testBit]
  refine ⟨?_, ?_, ?_⟩
  · cases hg : m.gLEDs.testBit (testedBit m.State)
    · rw [LED_events_idle m hg]
      exact ⟨_, _, rfl, rfl, hz, rfl⟩
    · rw [LED_events_lit m hg]
      exact ⟨_, _, rfl, rfl, hz, rfl⟩
  · intro hg
    rw [LED_events_idle m hg]
    exact ⟨_, rfl, rfl, hz⟩
  · intro hg
    rw [LED_events_lit m hg]
    refine ⟨_, _, _, _, rfl, ⟨rfl, hz⟩, ⟨rfl, hz, ?_, ?_⟩, ⟨rfl, rfl, ?_, ?_, ?_⟩,
      ⟨rfl, rfl, ?_, ?_⟩⟩ <;>
    · have hb := testedBit_lt m.State
      generalize testedBit m.State = b at hb
      interval_cases b <;>
        simp only [isOutput, anode, cathode, sparePin, Nat.testBit_and, Nat.testBit_or] <;>
        simp [Nat.testBit]

/-- Witness of claim C3: from the power-on state with mask `0b100000` the first
call is a lit slot (bit 5), and its four writes are `TRISGPIO = 0x34`,
`GPIO = 0`, `TRISGPIO = 0x10`, `GPIO = 0x04`. -/
theorem refresh_write_order_lit_example :
    LED_events { powerOn 0 with gLEDs := 0b100000 } =
      [{ reg := Reg.TRISGPIO, TRISGPIO := 0x34, GPIO := 0, gTRISGPIO := 0x34 },
       { reg := Reg.GPIO, TRISGPIO := 0x34, GPIO := 0, gTRISGPIO := 0x34 },
       { reg := Reg.TRISGPIO, TRISGPIO := 0x10, GPIO := 0, gTRISGPIO := 0x10 },
       { reg := Reg.GPIO, TRISGPIO := 0x10, GPIO := 0x04, gTRISGPIO := 0x10 }] ∧
    ∃ e1 e2 e3 e4, LED_events { powerOn 0 with gLEDs := 0b100000 } = [e1, e2, e3, e4] ∧
      e1.reg = Reg.TRISGPIO ∧ e2.reg = Reg.GPIO ∧ e3.reg = Reg.TRISGPIO ∧
      e4.reg = Reg.GPIO := by
  refine ⟨by decide, ?_⟩
  obtain ⟨e1, e2, e3, e4, h, h1, h2, h3, h4⟩ :=
    (refresh_write_order { powerOn 0 with gLEDs := 0b100000 }).2.2 (by decide)
  exact ⟨e1, e2, e3, e4, h, h1.1, h2.1, h3.1, h4.1⟩

/-- Claim C4. For every pre-state and every mask, when the mask bit tested by
the slot of this call is 0, `TRISGPIO` has bits 2, 4 and 5 all 1 after
`LED_refresh` returns: the three controlled pins are high-impedance, none is
an output and no LED is driven. -/
theorem idle_slot_all_high_impedance (m : Machine)
    (h : m.gLEDs.testBit (testedBit m.State) = false) :
    ((Machine.TRISGPIO (LED_refresh m)).testBit 2 = true ∧
      (Machine.TRISGPIO (LED_refresh m)).testBit 4 = true ∧
      (Machine.TRISGPIO (LED_refresh m)).testBit 5 = true) ∧
    numOutputs (Machine.TRISGPIO (LED_refresh m)) = 0 ∧
    (∀ i, i < 6 → drives i (LED_refresh m) = false) ∧
    numForward (Machine.TRISGPIO (LED_refresh m)) (Machine.GPIO (LED_refresh m)) = 0 := by
  rw [LED_refresh_idle m h, LED_drive_idle]
  refine ⟨?_, ?_, ?_, ?_⟩
  · simp only [Nat.testBit_or]
    simp [Nat.testBit]
  · simp only [numOutputs, isOutput, Nat.testBit_or, List.filter_cons]
    simp [Nat.testBit]
  · intro i hi
    interval_cases i <;>
      simp only [drives, LEDdriven, isOutput, anode, cathode, sparePin, Nat.testBit_or] <;>
      simp [Nat.testBit]
  · simp only [numForward, forwardDriven, isOutput, anode, cathode, Nat.testBit_or,
      List.filter_cons]
    simp [Nat.testBit]

/-- Witness of claim C4: the power-on state has mask 0, so the first call is an
idle slot. -/
theorem idle_slot_power_on :
    (powerOn 0).gLEDs.testBit (testedBit (powerOn 0).State) = false ∧
    (((Machine.TRISGPIO (LED_refresh (powerOn 0))).testBit 2 = true ∧
        (Machine.TRISGPIO (LED_refresh (powerOn 0))).testBit 4 = true ∧
        (Machine.TRISGPIO (LED_refresh (powerOn 0))).testBit 5 = true) ∧
      numOutputs (Machine.TRISGPIO (LED_refresh (powerOn 0))) = 0 ∧
      (∀ i, i < 6 →
        drives i (LED_refresh (powerOn 0)) = false) ∧
      numForward (Machine.TRISGPIO (LED_refresh (powerOn 0)))
        (Machine.GPIO (LED_refresh (powerOn 0))) = 0) :=
  ⟨by decide, idle_slot_all_high_impedance (powerOn 0) (by decide)⟩

/-! ## The pattern animator -/

/-- Counterexample to claim C5: on the mask `0b100001` the code yields
`0b000010` (bit 5 is dropped), the left rotation within six bits yields
`0b000011` (bit 5 wraps to bit 0). -/
theorem animate_is_not_a_rotation :
    main_animate 0b100001 = 0b000010 ∧ spec_rotateStep 0b100001 = 0b000011 ∧
      main_animate 0b100001 ≠ spec_rotateStep 0b100001 := by
  decide

/-- Claim C5, amended. The animator's step maps every 6-bit mask `m` to its
left shift by one bit position within a 6-bit field (bit `i` of `m` moves to
bit `i + 1` for `i < 5`, bit 0 of the result is 0 and bit 5 of `m` is
discarded), and then to 1 if that shifted value is zero.  It equals the left
rotation followed by the zero guard exactly on the masks `m ≤ 0b100000`, among
them all masks with a single bit set. -/
theorem animate_shifts_within_six_bits (m : Nat) (hm : m < 64) :
    main_animate m = (if 2 * (m % 32) = 0 then 1 else 2 * (m % 32)) ∧
    (2 * (m % 32)).testBit 0 = false ∧
    (∀ i, i < 5 → (2 * (m % 32)).testBit (i + 1) = m.testBit i) ∧
    (main_animate m = spec_rotateStep m ↔ m ≤ 0b100000) := by
  refine ⟨?_, ?_, ?_, ?_⟩
  · interval_cases m <;> decide
  · interval_cases m <;> decide
  · intro i hi
    interval_cases m <;> interval_cases i <;> decide
  · interval_cases m <;> decide

/-- Witness of claim C5 (amended): the mask `0b000110` steps to `0b001100`. -/
theorem animate_shifts_example :
    (0b000110 < 64 ∧ main_animate 0b000110 = 0b001100) ∧
    (main_animate 0b000110 = (if 2 * (0b000110 % 32) = 0 then 1 else 2 * (0b000110 % 32)) ∧
      (2 * (0b000110 % 32)).testBit 0 = false ∧
      (∀ i, i < 5 → (2 * (0b000110 % 32)).testBit (i + 1) = Nat.testBit 0b000110 i) ∧
      (main_animate 0b000110 = spec_rotateStep 0b000110 ↔ 0b000110 ≤ 0b100000)) :=
  ⟨by decide, animate_shifts_within_six_bits 0b000110 (by decide)⟩

/-- Claim C6. From `gLEDs = 0b000001` the animator's step runs through
1, 2, 4, 8, 16, 32 and is back at 1 after six applications, and after none of
the first five: the orbit has full period 6. -/
theorem animate_period_six :
    (List.range 7).map (fun k => animateN k 0b000001)
      = [0b000001, 0b000010, 0b000100, 0b001000, 0b010000, 0b100000, 0b000001] ∧
    animateN 6 0b000001 = 0b000001 ∧
    ∀ k, 1 ≤ k → k < 6 → animateN k 0b000001 ≠ 0b000001 := by
  refine ⟨by decide, by decide, ?_⟩
  intro k h1 h6
  interval_cases k <;> decide

/-- Claim C7. For every value of `gLEDs` the animator's step never yields a
dark mask: the result lies in 1..63, and it is exactly 1 whenever the shifted
value masked to six bits is zero. -/
theorem animate_never_dark (g : Nat) :
    1 ≤ main_animate g ∧ main_animate g ≤ 63 ∧
    ((((g <<< 1) % 256) &&& 0x3F) = 0 → main_animate g = 1) ∧
    ((((g <<< 1) % 256) &&& 0x3F) ≠ 0 → main_animate g = ((g <<< 1) % 256) &&& 0x3F) := by
  have hle : ((g <<< 1) % 256) &&& 0x3F ≤ 0x3F := Nat.and_le_right
  unfold main_animate
  simp only []
  split
  · simp_all
  · refine ⟨by omega, by omega, fun h => absurd h ‹_›, fun _ => rfl⟩

/-! ## The process loop -/

theorem LED_refresh_frame (m : Machine) :
    (LED_refresh m).gLEDs = m.gLEDs ∧ (LED_refresh m).gPause = m.gPause ∧
      (LED_refresh m).gTMR0_MSB = m.gTMR0_MSB ∧ (LED_refresh m).OPTION = m.OPTION := by
  cases hg : m.gLEDs.testBit (testedBit m.State)
  · rw [LED_refresh_idle m hg, LED_drive_idle]
    exact ⟨rfl, rfl, rfl, rfl⟩
  · rw [LED_refresh_lit m hg, LED_drive_lit _ _ _ (outBits_ne_zero _ (testedBit_lt _))]
    exact ⟨rfl, rfl, rfl, rfl⟩

theorem detectsTick_iff (m : Machine) (t1 : Nat) :
    detectsTick m t1 = true ↔ t1.testBit 7 ≠ m.gTMR0_MSB.testBit 7 := by
  unfold detectsTick
  rw [decide_eq_true_eq, show (0x80 : Nat) = 2 ^ 7 by norm_num, and_bit_ne_zero,
    Nat.testBit_xor]
  cases t1.testBit 7 <;> cases m.gTMR0_MSB.testBit 7 <;> simp

theorem detectsTick_refresh (m : Machine) (t1 : Nat) :
    detectsTick (LED_refresh m) t1 = detectsTick m t1 := by
  unfold detectsTick
  rw [(LED_refresh_frame m).2.2.1]

theorem main_tick_no_tick (m : Machine) (t1 t2 : Nat) (h : detectsTick m t1 = false) :
    main_tick m t1 t2 = m := by
  unfold detectsTick at h
  unfold main_tick
  rw [if_neg (by simpa using h)]

theorem main_tick_on_tick (m : Machine) (t1 t2 : Nat) (h : detectsTick m t1 = true) :
    main_tick m t1 t2 =
      if (m.gPause + 255) % 256 = 0 then
        { m with gTMR0_MSB := t2, gLEDs := main_animate m.gLEDs, gPause := LED_STEP_DELAY }
      else { m with gTMR0_MSB := t2, gPause := (m.gPause + 255) % 256 } := by
  unfold detectsTick at h
  unfold main_tick
  rw [if_pos (by simpa using h)]

theorem main_iter_no_tick (m : Machine) (t : Nat × Nat) (h : detectsTick m t.1 = false) :
    (main_iter m t).gLEDs = m.gLEDs ∧ (main_iter m t).gPause = m.gPause ∧
      (main_iter m t).gTMR0_MSB = m.gTMR0_MSB := by
  unfold main_iter
  rw [main_tick_no_tick _ _ _ (by rw [detectsTick_refresh]; exact h)]
  exact ⟨(LED_refresh_frame m).1, (LED_refresh_frame m).2.1, (LED_refresh_frame m).2.2.1⟩

theorem main_iter_on_tick (m : Machine) (t : Nat × Nat) (h : detectsTick m t.1 = true) :
    (main_iter m t).gTMR0_MSB = t.2 ∧
    (main_iter m t).gPause =
      (if (m.gPause + 255) % 256 = 0 then LED_STEP_DELAY else (m.gPause + 255) % 256) ∧
    (main_iter m t).gLEDs =
      (if (m.gPause + 255) % 256 = 0 then main_animate m.gLEDs else m.gLEDs) := by
  unfold main_iter
  rw [main_tick_on_tick _ _ _ (by rw [detectsTick_refresh]; exact h)]
  obtain ⟨h1, h2, -, -⟩ := LED_refresh_frame m
  rw [h1, h2]
  split <;> simp [h1, h2]

/-- The countdown of `gPause` over any run of the process loop. -/
theorem main_loop_countdown (ts : List (Nat × Nat)) :
    ∀ m : Machine, 1 ≤ m.gPause → m.gPause ≤ 64 →
      (ticksDetected m ts < m.gPause →
        (main_loop m ts).gLEDs = m.gLEDs ∧
        (main_loop m ts).gPause = m.gPause - ticksDetected m ts) ∧
      (ticksDetected m ts = m.gPause →
        (main_loop m ts).gLEDs = main_animate m.gLEDs ∧
        (main_loop m ts).gPause = LED_STEP_DELAY) := by
  induction ts with
  | nil =>
    intro m h1 _
    have h0 : ticksDetected m [] = 0 := rfl
    exact ⟨fun _ => ⟨rfl, rfl⟩, fun h => by omega⟩
  | cons t ts ih =>
    intro m h1 h64
    have step : main_loop m (t :: ts) = main_loop (main_iter m t) ts := rfl
    rw [step]
    simp only [ticksDetected]
    cases hd : detectsTick m t.1
    · obtain ⟨e1, e2, -⟩ := main_iter_no_tick m t hd
      have := ih (main_iter m t) (by omega) (by omega)
      rw [e1, e2] at this
      simpa using this
    · obtain ⟨-, e2, e1⟩ := main_iter_on_tick m t hd
      by_cases hp : m.gPause = 1
      · have hz : (m.gPause + 255) % 256 = 0 := by omega
        rw [if_pos hz] at e1 e2
        have := ih (main_iter m t) (by rw [e2]; decide) (by rw [e2]; decide)
        rw [e1, e2] at this
        simp only [if_true]
        constructor
        · intro h
          omega
        · intro h
          have h0 : ticksDetected (main_iter m t) ts < LED_STEP_DELAY := by
            simp only [LED_STEP_DELAY]
            omega
          have := this.1 h0
          have h00 : ticksDetected (main_iter m t) ts = 0 := by omega
          rw [h00] at this
          exact this
      · have hz : ¬ (m.gPause + 255) % 256 = 0 := by omega
        rw [if_neg hz] at e1 e2
        have e2' : (main_iter m t).gPause = m.gPause - 1 := by omega
        have := ih (main_iter m t) (by omega) (by omega)
        rw [e1, e2'] at this
        simp only [if_true]
        constructor
        · intro h
          have := this.1 (by omega)
          exact ⟨this.1, by omega⟩
        · intro h
          exact this.2 (by omega)

/-- Claim C8. One pass of the process loop as a step taking the `TMR0`
samples as input, started just after a step of the mask (`gPause = 64`): for
every sequence of samples, `gLEDs` is unchanged as long as fewer than 64 ticks
have been detected (so after 63), with `gPause` counting the ticks down; once
the 64th tick has been detected `gLEDs` is the animator's step of the initial
mask, applied once, and `gPause` is 64 again. -/
theorem mask_steps_on_64th_tick (m : Machine) (h : m.gPause = 64) (ts : List (Nat × Nat)) :
    (ticksDetected m ts < 64 →
      (main_loop m ts).gLEDs = m.gLEDs ∧ (main_loop m ts).gPause = 64 - ticksDetected m ts) ∧
    (ticksDetected m ts = 63 → (main_loop m ts).gLEDs = m.gLEDs) ∧
    (ticksDetected m ts = 64 →
      (main_loop m ts).gLEDs = main_animate m.gLEDs ∧ (main_loop m ts).gPause = 64) := by
  have key := main_loop_countdown ts m (by omega) (by omega)
  rw [h] at key
  exact ⟨key.1, fun h63 => (key.1 (by omega)).1, key.2⟩

/-- Witness of claim C8: from `gLEDs = 1`, `gPause = 64`, with bit 7 of `TMR0`
toggling on every pass, 63 passes detect 63 ticks and leave the mask at 1, and
the 64th pass detects the 64th tick, moves the mask to 2 and reloads `gPause`. -/
theorem mask_steps_on_64th_tick_example :
    afterStep.gPause = 64 ∧
    (ticksDetected afterStep (toggling 63) = 63 ∧
      (main_loop afterStep (toggling 63)).gLEDs = 1 ∧
      (main_loop afterStep (toggling 63)).gPause = 1) ∧
    (ticksDetected afterStep (toggling 64) = 64 ∧
      (main_loop afterStep (toggling 64)).gLEDs = 2 ∧
      (main_loop afterStep (toggling 64)).gPause = 64) := by
  have h63 : ticksDetected afterStep (toggling 63) = 63 := by decide
  have h64 : ticksDetected afterStep (toggling 64) = 64 := by decide
  have t := mask_steps_on_64th_tick afterStep rfl
  refine ⟨rfl, ⟨h63, ?_, ?_⟩, ⟨h64, ?_, ?_⟩⟩
  · exact ((t (toggling 63)).1 (by rw [h63]; decide)).1
  · rw [((t (toggling 63)).1 (by rw [h63]; decide)).2, h63]
  · exact ((t (toggling 64)).2.2 h64).1
  · exact ((t (toggling 64)).2.2 h64).2

/-- Claim C9. A pass of the process loop detects a tick exactly when bit 7 of
the sampled `TMR0` differs from bit 7 of `gTMR0_MSB` (no other bit of either
matters).  Without a tick the pass leaves `gLEDs`, `gPause` and `gTMR0_MSB`
unchanged.  With a tick `gPause` is counted down (or reloaded) and `gTMR0_MSB`
becomes the new sample read from `TMR0` in line 219, so that a following pass
whose sample has the same bit 7 as the stored one detects no tick and changes
none of the three. -/
theorem tick_is_toggle_of_bit7 (m : Machine) (t1 t2 : Nat) :
    (detectsTick m t1 = true ↔ t1.testBit 7 ≠ m.gTMR0_MSB.testBit 7) ∧
    (∀ m' : Machine, ∀ u1 : Nat, u1.testBit 7 = t1.testBit 7 →
      m'.gTMR0_MSB.testBit 7 = m.gTMR0_MSB.testBit 7 → detectsTick m' u1 = detectsTick m t1) ∧
    (t1.testBit 7 = m.gTMR0_MSB.testBit 7 →
      (main_iter m (t1, t2)).gLEDs = m.gLEDs ∧ (main_iter m (t1, t2)).gPause = m.gPause ∧
      (main_iter m (t1, t2)).gTMR0_MSB = m.gTMR0_MSB ∧
      main_tick (LED_refresh m) t1 t2 = LED_refresh m) ∧
    (t1.testBit 7 ≠ m.gTMR0_MSB.testBit 7 →
      (main_iter m (t1, t2)).gTMR0_MSB = t2 ∧
      (main_iter m (t1, t2)).gPause =
        (if (m.gPause + 255) % 256 = 0 then LED_STEP_DELAY else (m.gPause + 255) % 256) ∧
      ∀ u1 u2 : Nat, u1.testBit 7 = t2.testBit 7 →
        detectsTick (main_iter m (t1, t2)) u1 = false ∧
        (main_iter (main_iter m (t1, t2)) (u1, u2)).gLEDs = (main_iter m (t1, t2)).gLEDs ∧
        (main_iter (main_iter m (t1, t2)) (u1, u2)).gPause = (main_iter m (t1, t2)).gPause ∧
        (main_iter (main_iter m (t1, t2)) (u1, u2)).gTMR0_MSB
          = (main_iter m (t1, t2)).gTMR0_MSB) := by
  refine ⟨detectsTick_iff m t1, ?_, ?_, ?_⟩
  · intro m' u1 hu hm
    rw [Bool.eq_iff_iff, detectsTick_iff, detectsTick_iff, hu, hm]
  · intro h
    have hd : detectsTick m t1 = false := by
      rw [← Bool.not_eq_true, detectsTick_iff]
      exact fun hne => hne h
    obtain ⟨a, b, c⟩ := main_iter_no_tick m (t1, t2) hd
    exact ⟨a, b, c, main_tick_no_tick _ _ _ (by rw [detectsTick_refresh]; exact hd)⟩
  · intro h
    have hd : detectsTick m t1 = true := (detectsTick_iff m t1).2 h
    obtain ⟨a, b, -⟩ := main_iter_on_tick m (t1, t2) hd
    refine ⟨a, b, ?_⟩
    intro u1 u2 hu
    have hd' : detectsTick (main_iter m (t1, t2)) u1 = false := by
      rw [← Bool.not_eq_true, detectsTick_iff, a]
      exact fun hne => hne hu
    exact ⟨hd', main_iter_no_tick _ (u1, u2) hd'⟩

/-- Witness of claim C9: with `gTMR0_MSB = 0x00` the sample `0x7F` detects no
tick and the sample `0x80` detects one; the assignment then reads `0x81`,
which is stored, and a following sample `0xFF` detects no tick. -/
theorem tick_is_toggle_example :
    detectsTick afterStep 0x7F = false ∧ detectsTick afterStep 0x80 = true ∧
    (main_iter afterStep (0x80, 0x81)).gTMR0_MSB = 0x81 ∧
    (main_iter afterStep (0x80, 0x81)).gPause = 63 ∧
    detectsTick (main_iter afterStep (0x80, 0x81)) 0xFF = false := by
  have t := (tick_is_toggle_of_bit7 afterStep 0x80 0x81).2.2.2 (by decide)
  exact ⟨by decide, by decide, t.1, by decide, (t.2.2 0xFF 0 (by decide)).1⟩

/-! ## The direction shadow -/

theorem LED_refresh_mirror (m : Machine) :
    inSync (LED_refresh m) := by
  unfold inSync
  cases hg : m.gLEDs.testBit (testedBit m.State)
  · rw [LED_refresh_idle m hg, LED_drive_idle]
  · rw [LED_refresh_lit m hg, LED_drive_lit _ _ _ (outBits_ne_zero _ (testedBit_lt _))]

theorem LED_events_mirrored (m : Machine) : Mirrored (LED_events m) := by
  unfold Mirrored
  cases hg : m.gLEDs.testBit (testedBit m.State)
  · rw [LED_events_idle m hg]
    simp
  · rw [LED_events_lit m hg]
    simp

theorem Mirrored_append (a b : List Event) (ha : Mirrored a) (hb : Mirrored b) :
    Mirrored (a ++ b) := by
  intro e he
  rcases List.mem_append.1 he with h | h
  · exact ha e h
  · exact hb e h

theorem main_tick_hw (m : Machine) (t1 t2 : Nat) :
    Machine.TRISGPIO (main_tick m t1 t2) = m.TRISGPIO ∧
      Machine.gTRISGPIO (main_tick m t1 t2) = m.gTRISGPIO ∧
      Machine.GPIO (main_tick m t1 t2) = m.GPIO ∧ (main_tick m t1 t2).trace = m.trace := by
  unfold main_tick
  simp only []
  split
  · split <;> exact ⟨rfl, rfl, rfl, rfl⟩
  · exact ⟨rfl, rfl, rfl, rfl⟩

theorem main_loop_mirror (ts : List (Nat × Nat)) :
    ∀ m : Machine, inSync m →
      inSync (main_loop m ts) ∧
      ∃ new, (main_loop m ts).trace = m.trace ++ new ∧ Mirrored new := by
  induction ts with
  | nil =>
    intro m h
    exact ⟨h, [], by simp [main_loop], fun e he => by simp at he⟩
  | cons t ts ih =>
    intro m _
    have step : main_loop m (t :: ts) = main_loop (main_iter m t) ts := rfl
    obtain ⟨a, b, -, d⟩ := main_tick_hw (LED_refresh m) t.1 t.2
    have hm : inSync (main_iter m t) := by
      unfold inSync main_iter
      rw [a, b]
      exact LED_refresh_mirror m
    have ht : (main_iter m t).trace = m.trace ++ LED_events m := by
      unfold main_iter
      rw [d, LED_refresh_trace]
    obtain ⟨h1, new, h2, h3⟩ := ih (main_iter m t) hm
    rw [step]
    refine ⟨h1, LED_events m ++ new, ?_, Mirrored_append _ _ (LED_events_mirrored m) h3⟩
    rw [h2, ht, List.append_assoc]

theorem PIC_delay_frame (ts : List (Nat × Nat)) :
    ∀ m m' : Machine, PIC_delay m ts = some m' →
      m'.gPause = 0 ∧ m'.TRISGPIO = m.TRISGPIO ∧ m'.gTRISGPIO = m.gTRISGPIO ∧
      m'.GPIO = m.GPIO ∧ m'.OPTION = m.OPTION ∧ m'.trace = m.trace ∧
      m'.gLEDs = m.gLEDs ∧ m'.State = m.State := by
  induction ts with
  | nil =>
    intro m m' h
    simp only [PIC_delay] at h
    split at h
    · cases h
    · cases h
      exact ⟨by omega, rfl, rfl, rfl, rfl, rfl, rfl, rfl⟩
  | cons t ts ih =>
    intro m m' h
    obtain ⟨t1, t2⟩ := t
    simp only [PIC_delay] at h
    split at h
    · split at h
      · have := ih _ m' h
        exact this
      · exact ih m m' h
    · cases h
      exact ⟨by omega, rfl, rfl, rfl, rfl, rfl, rfl, rfl⟩

theorem PIC_Init_result (m m' : Machine) (t0 : Nat) (ts : List (Nat × Nat))
    (h : PIC_Init m t0 ts = some m') :
    m'.TRISGPIO = 0b11111111 ∧ m'.gTRISGPIO = 0b11111111 ∧ m'.GPIO = 0 ∧
    m'.trace = m.trace ++
      [{ reg := Reg.OPTION, TRISGPIO := m.TRISGPIO, GPIO := m.GPIO, gTRISGPIO := m.gTRISGPIO },
       { reg := Reg.GPIO, TRISGPIO := m.TRISGPIO, GPIO := 0, gTRISGPIO := m.gTRISGPIO },
       { reg := Reg.TRISGPIO, TRISGPIO := 0b11111111, GPIO := 0, gTRISGPIO := 0b11111111 }] := by
  unfold PIC_Init at h
  simp only [] at h
  split at h
  · cases h
  · rename_i d hd
    obtain ⟨-, a, b, c, -, e, -, -⟩ := PIC_delay_frame ts _ d hd
    cases h
    simp [setTris, setGpio, setOption, a, b, c, e] at *

theorem PIC_Init_mirror (m m' : Machine) (t0 : Nat) (ts : List (Nat × Nat))
    (h : PIC_Init m t0 ts = some m') :
    m'.TRISGPIO = m'.gTRISGPIO ∧ ∃ new, m'.trace = m.trace ++ new ∧ Mirrored new := by
  obtain ⟨a, b, -, e⟩ := PIC_Init_result m m' t0 ts h
  refine ⟨by rw [a, b], _, e, ?_⟩
  intro x hx
  simp only [List.mem_cons, List.mem_singleton, List.not_mem_nil, or_false] at hx
  rcases hx with rfl | rfl | rfl <;> simp

theorem main_mirror (m m' : Machine) (t0 : Nat) (delay : List (Nat × Nat)) (t : Nat)
    (loop : List (Nat × Nat)) (h : main m t0 delay t loop = some m') :
    m'.TRISGPIO = m'.gTRISGPIO ∧ ∃ new, m'.trace = m.trace ++ new ∧ Mirrored new := by
  unfold main at h
  split at h
  · cases h
  · rename_i d hd
    obtain ⟨a, pre, e, hpre⟩ := PIC_Init_mirror m d t0 delay hd
    simp only [Option.some.injEq] at h
    obtain ⟨h1, new, h2, h3⟩ :=
      main_loop_mirror loop { d with gTMR0_MSB := t, gPause := LED_STEP_DELAY } a
    rw [← h]
    refine ⟨h1, pre ++ new, ?_, Mirrored_append _ _ hpre h3⟩
    rw [h2]
    show d.trace ++ new = _
    rw [e, List.append_assoc]

/-- Claim C10. The shadow `gTRISGPIO` mirrors the direction register: every
write to `TRISGPIO` writes the value `gTRISGPIO` has at that moment, in
`LED_refresh`, in `PIC_Init` and over any run of `main`; `TRISGPIO` equals
`gTRISGPIO` when `LED_refresh` returns (for every mask, slot counter and
pre-state), when `PIC_Init` returns and after every pass of the process loop;
and the code outside these two functions (the delay loop, the tick handling of
the process loop) changes neither of them and writes no register. -/
theorem shadow_mirrors_direction_register :
    (∀ m : Machine,
      inSync (LED_refresh m) ∧
      (LED_refresh m).trace = m.trace ++ LED_events m ∧ Mirrored (LED_events m)) ∧
    (∀ (m m' : Machine) (t0 : Nat) (ts : List (Nat × Nat)), PIC_Init m t0 ts = some m' →
      m'.TRISGPIO = m'.gTRISGPIO ∧ ∃ new, m'.trace = m.trace ++ new ∧ Mirrored new) ∧
    (∀ (m m' : Machine) (ts : List (Nat × Nat)), PIC_delay m ts = some m' →
      m'.TRISGPIO = m.TRISGPIO ∧ m'.gTRISGPIO = m.gTRISGPIO ∧ m'.trace = m.trace) ∧
    (∀ (m : Machine) (t1 t2 : Nat),
      Machine.TRISGPIO (main_tick m t1 t2) = m.TRISGPIO ∧
      Machine.gTRISGPIO (main_tick m t1 t2) = m.gTRISGPIO ∧
      (main_tick m t1 t2).trace = m.trace) ∧
    (∀ (m m' : Machine) (t0 : Nat) (delay : List (Nat × Nat)) (t : Nat)
        (loop : List (Nat × Nat)), main m t0 delay t loop = some m' →
      m'.TRISGPIO = m'.gTRISGPIO ∧ ∃ new, m'.trace = m.trace ++ new ∧ Mirrored new) := by
  refine ⟨?_, ?_, ?_, ?_, ?_⟩
  · intro m
    exact ⟨LED_refresh_mirror m, LED_refresh_trace m, LED_events_mirrored m⟩
  · intro m m' t0 ts h
    exact PIC_Init_mirror m m' t0 ts h
  · intro m m' ts h
    obtain ⟨-, a, b, -, -, e, -, -⟩ := PIC_delay_frame ts m m' h
    exact ⟨a, b, e⟩
  · intro m t1 t2
    obtain ⟨a, b, -, d⟩ := main_tick_hw m t1 t2
    exact ⟨a, b, d⟩
  · intro m m' t0 delay t loop h
    exact main_mirror m m' t0 delay t loop h

/-- Witness of claim C10: from the power-on state, with bit 7 of `TMR0`
toggling on every pass, `PIC_Init` returns after 61 ticks and `main` runs 130
passes of the process loop; `TRISGPIO` equals `gTRISGPIO` at both points. -/
theorem shadow_mirrors_example :
    (∃ m', PIC_Init (powerOn 0) 0 (toggling 61) = some m' ∧ m'.TRISGPIO = m'.gTRISGPIO) ∧
    (∃ m', main (powerOn 0) 0 (toggling 61) 0 (toggling 130) = some m' ∧
      m'.TRISGPIO = m'.gTRISGPIO) := by
  have hI : (PIC_Init (powerOn 0) 0 (toggling 61)).isSome = true := by decide
  have hM : (main (powerOn 0) 0 (toggling 61) 0 (toggling 130)).isSome = true := by
    unfold main
    revert hI
    cases PIC_Init (powerOn 0) 0 (toggling 61) <;> simp
  obtain ⟨a, ha⟩ := Option.isSome_iff_exists.1 hI
  obtain ⟨b, hb⟩ := Option.isSome_iff_exists.1 hM
  exact ⟨⟨a, ha, (shadow_mirrors_direction_register.2.1 _ a _ _ ha).1⟩,
    ⟨b, hb, (shadow_mirrors_direction_register.2.2.2.2 _ b _ _ _ _ hb).1⟩⟩

/-! ## The slot counter -/

theorem LED_refresh_State_range (m : Machine) :
    1 ≤ (LED_refresh m).State ∧ (LED_refresh m).State ≤ 6 := by
  have h := testedBit_lt m.State
  rw [LED_refresh_State]
  split <;> omega

theorem refreshN_testedBit (k : Nat) (m : Machine) (h1 : 1 ≤ m.State) (h6 : m.State ≤ 6) :
    testedBit (refreshN k m).State = (m.State + 5 * k - 1) % 6 := by
  rw [testedBit_of_range _ (by rw [refreshN_State k m h1 h6]; omega)
    (by rw [refreshN_State k m h1 h6]; omega), refreshN_State k m h1 h6]
  omega

/-- Claim C11. The mask bit tested by a call of `LED_refresh` is always in
0..5 and the stored counter is in 1..6 after every call.  From the power-on
value `State = 6` the `k`-th call (`k ≥ 1`) tests bit `5 - ((k - 1) mod 6)`:
the order is 5, 4, 3, 2, 1, 0, 5, ...; the call after one that tests bit 0
tests bit 5, and after one that tests bit `b > 0` (with the counter in 1..6)
the next tests bit `b - 1`. -/
theorem slots_cycle_5_down_to_0 :
    (powerOn 0).State = 6 ∧
    (∀ m : Machine, testedBit m.State < 6 ∧
      1 ≤ (LED_refresh m).State ∧ (LED_refresh m).State ≤ 6) ∧
    (∀ (m : Machine) (k : Nat), m.State = 6 → 1 ≤ k →
      testedBit (refreshN (k - 1) m).State = 5 - ((k - 1) % 6) ∧
      1 ≤ (refreshN k m).State ∧ (refreshN k m).State ≤ 6) ∧
    (∀ m : Machine, testedBit m.State = 0 → testedBit (LED_refresh m).State = 5) ∧
    (∀ m : Machine, 1 ≤ m.State → m.State ≤ 6 → 0 < testedBit m.State →
      testedBit (LED_refresh m).State = testedBit m.State - 1) := by
  refine ⟨rfl, ?_, ?_, ?_, ?_⟩
  · intro m
    exact ⟨testedBit_lt m.State, LED_refresh_State_range m⟩
  · intro m k h6 hk
    have hs := refreshN_State k m (by omega) (by omega)
    have ht := refreshN_testedBit (k - 1) m (by omega) (by omega)
    rw [ht, hs, h6]
    omega
  · intro m h
    rw [LED_refresh_State, if_pos h]
    rfl
  · intro m h1 h6 hp
    have hb := testedBit_of_range m.State h1 h6
    rw [LED_refresh_State, if_neg (by omega), hb,
      testedBit_of_range (m.State - 1) (by omega) (by omega)]

/-- Witness of claim C11: from the power-on state the first seven calls test
the bits 5, 4, 3, 2, 1, 0, 5 and leave the counter at 5, 4, 3, 2, 1, 6, 5. -/
theorem slots_cycle_from_power_on :
    (List.range 7).map (fun k => testedBit (refreshN k (powerOn 0)).State)
      = [5, 4, 3, 2, 1, 0, 5] ∧
    (List.range 7).map (fun k => (refreshN (k + 1) (powerOn 0)).State)
      = [5, 4, 3, 2, 1, 6, 5] ∧
    testedBit (refreshN (7 - 1) (powerOn 0)).State = 5 - ((7 - 1) % 6) := by
  refine ⟨by decide, by decide, ?_⟩
  exact ((slots_cycle_5_down_to_0.2.2.1) (powerOn 0) 7 rfl (by decide)).1

/-! ## Initialisation -/

theorem PIC_delay_some (ts : List (Nat × Nat)) :
    ∀ m : Machine, m.gPause ≤ togglesSeen m.gTMR0_MSB ts →
      ∃ m', PIC_delay m ts = some m' := by
  induction ts with
  | nil =>
    intro m h
    have h0 : m.gPause = 0 := by
      simp only [togglesSeen] at h
      omega
    exact ⟨m, by simp [PIC_delay, h0]⟩
  | cons t ts ih =>
    intro m h
    obtain ⟨t1, t2⟩ := t
    by_cases hp : m.gPause = 0
    · exact ⟨m, by simp [PIC_delay, hp]⟩
    · simp only [togglesSeen] at h
      by_cases hx : (t1 ^^^ m.gTMR0_MSB) &&& 0x80 ≠ 0
      · rw [if_pos hx] at h
        obtain ⟨m', hm'⟩ :=
          ih { m with gTMR0_MSB := t2, gPause := (m.gPause + 255) % 256 } (by
            show (m.gPause + 255) % 256 ≤ togglesSeen t2 ts
            omega)
        exact ⟨m', by simp only [PIC_delay]; rw [if_pos hp, if_pos hx]; exact hm'⟩
      · rw [if_neg hx] at h
        obtain ⟨m', hm'⟩ := ih m h
        exact ⟨m', by simp only [PIC_delay]; rw [if_pos hp, if_neg hx]; exact hm'⟩

theorem PIC_delay_none (ts : List (Nat × Nat)) :
    ∀ m : Machine, m.gPause < 256 → togglesSeen m.gTMR0_MSB ts < m.gPause →
      PIC_delay m ts = none := by
  induction ts with
  | nil =>
    intro m _ h
    have h0 : m.gPause ≠ 0 := by omega
    simp [PIC_delay, h0]
  | cons t ts ih =>
    intro m hb h
    obtain ⟨t1, t2⟩ := t
    have hp : m.gPause ≠ 0 := by omega
    simp only [togglesSeen] at h
    simp only [PIC_delay]
    rw [if_pos hp]
    by_cases hx : (t1 ^^^ m.gTMR0_MSB) &&& 0x80 ≠ 0
    · rw [if_pos hx] at h ⊢
      exact ih { m with gTMR0_MSB := t2, gPause := (m.gPause + 255) % 256 } (by
        show (m.gPause + 255) % 256 < 256
        omega) (by
        show togglesSeen t2 ts < (m.gPause + 255) % 256
        omega)
    · rw [if_neg hx] at h ⊢
      exact ih m hb h

theorem PIC_Init_returns (m : Machine) (t0 : Nat) (ts : List (Nat × Nat))
    (h : POR_DELAY ≤ togglesSeen t0 ts) : ∃ m', PIC_Init m t0 ts = some m' := by
  unfold PIC_Init
  obtain ⟨d, hd⟩ := PIC_delay_some ts
    { setOption m 0b11010101 with gTMR0_MSB := t0, gPause := POR_DELAY } h
  simp only [hd]
  exact ⟨_, rfl⟩

theorem PIC_Init_frame (m m' : Machine) (t0 : Nat) (ts : List (Nat × Nat))
    (h : PIC_Init m t0 ts = some m') :
    m'.gLEDs = m.gLEDs ∧ m'.State = m.State ∧ m'.gPause = 0 := by
  unfold PIC_Init at h
  simp only [] at h
  split at h
  · cases h
  · rename_i d hd
    obtain ⟨a, -, -, -, -, -, b, c⟩ := PIC_delay_frame ts _ d hd
    cases h
    exact ⟨b, c, a⟩

theorem main_entry (m m' : Machine) (t0 : Nat) (delay : List (Nat × Nat)) (t : Nat)
    (loop : List (Nat × Nat)) (h : main m t0 delay t loop = some m') :
    ∃ d e, PIC_Init m t0 delay = some d ∧ main m t0 delay t [] = some e ∧
      e = { d with gTMR0_MSB := t, gPause := LED_STEP_DELAY } ∧ m' = main_loop e loop := by
  cases hd : PIC_Init m t0 delay with
  | none => simp [main, hd] at h
  | some d =>
    simp only [main, hd, Option.some.injEq] at h
    exact ⟨d, _, rfl, by simp only [main, hd]; rfl, rfl, h.symm⟩

theorem main_entry_state (m e : Machine) (t0 : Nat) (delay : List (Nat × Nat)) (t : Nat)
    (h : main m t0 delay t [] = some e) :
    e.gLEDs = m.gLEDs ∧ e.State = m.State ∧ e.gPause = LED_STEP_DELAY ∧ e.gTMR0_MSB = t ∧
    e.TRISGPIO = 0b11111111 ∧ e.gTRISGPIO = 0b11111111 ∧ e.GPIO = 0 := by
  obtain ⟨d, e', hd, he, rfl, hl⟩ := main_entry m e t0 delay t [] h
  obtain ⟨a, b, -⟩ := PIC_Init_frame m d t0 delay hd
  obtain ⟨x, y, z, -⟩ := PIC_Init_result m d t0 delay hd
  rw [hl]
  exact ⟨a, b, rfl, rfl, x, y, z⟩

theorem highZ_no_drive (tris gpio : Nat) (h : allHighZ tris = true) :
    numOutputs tris = 0 ∧ (∀ i, i < 6 → LEDdriven i tris gpio = false) ∧
      numForward tris gpio = 0 := by
  simp only [allHighZ, Bool.and_eq_true] at h
  obtain ⟨⟨h2, h4⟩, h5⟩ := h
  refine ⟨?_, ?_, ?_⟩
  · simp [numOutputs, isOutput, List.filter_cons, h2, h4, h5]
  · intro i hi
    interval_cases i <;> simp [LEDdriven, isOutput, anode, cathode, h2, h4, h5]
  · simp [numForward, forwardDriven, isOutput, anode, cathode, List.filter_cons, h2, h4, h5]

/-- Counterexample to claim C12: from the power-on state, with bit 7 of `TMR0`
toggling on every pass, `main` enters its process loop with `gLEDs = 0`. -/
theorem mask_not_seeded_at_loop_entry :
    main (powerOn 0) 0 (toggling 61) 0 [] = some atLoopEntry ∧ atLoopEntry.gLEDs = 0 := by
  decide

/-- Claim C12, amended. When `main` enters its process loop, `gLEDs` still has
the value it had at reset, which is 0: neither `PIC_Init` nor the statements
of `main` before the loop write it.  It stays 0 while fewer than 64 ticks have
been detected, and the animator's step at the 64th tick makes it `0b000001`. -/
theorem mask_is_zero_until_first_step (gpio t0 : Nat) (delay : List (Nat × Nat)) (t : Nat)
    (e : Machine) (h : main (powerOn gpio) t0 delay t [] = some e) :
    e.gLEDs = 0 ∧ e.gPause = 64 ∧
    (∀ loop, ticksDetected e loop < 64 → (main_loop e loop).gLEDs = 0) ∧
    (∀ loop, ticksDetected e loop = 64 → (main_loop e loop).gLEDs = 0b000001) := by
  obtain ⟨a, -, c, -⟩ := main_entry_state _ e _ _ _ h
  have a0 : e.gLEDs = 0 := a
  have c0 : e.gPause = 64 := c
  refine ⟨a0, c0, ?_, ?_⟩
  · intro loop hl
    have := (main_loop_countdown loop e (by omega) (by omega)).1 (by omega)
    rw [this.1, a0]
  · intro loop hl
    have := (main_loop_countdown loop e (by omega) (by omega)).2 (by omega)
    rw [this.1, a0]
    decide

/-- Witness of claim C12 (amended): the run of the counterexample, continued
for 63 and for 64 passes that each detect a tick. -/
theorem mask_is_zero_until_first_step_example :
    main (powerOn 0) 0 (toggling 61) 0 [] = some atLoopEntry ∧
    atLoopEntry.gLEDs = 0 ∧ atLoopEntry.gPause = 64 ∧
    (main_loop atLoopEntry (toggling 63)).gLEDs = 0 ∧
    (main_loop atLoopEntry (toggling 64)).gLEDs = 1 := by
  have he : main (powerOn 0) 0 (toggling 61) 0 [] = some atLoopEntry := by decide
  have t := mask_is_zero_until_first_step 0 0 (toggling 61) 0 atLoopEntry he
  exact ⟨he, t.1, t.2.1, t.2.2.1 (toggling 63) (by decide), t.2.2.2 (toggling 64) (by decide)⟩

/-- Claim C13. Whenever `PIC_Init` returns, `gTRISGPIO` and `TRISGPIO` are
`0b11111111` and the `GPIO` latch is 0: GP2, GP4 and GP5 are high-impedance
inputs, no pin is an output and no LED is driven, and this is still so when
`main` enters its process loop, before the first call of `LED_refresh`.
`PIC_Init` returns exactly on the sample sequences in which bit 7 of `TMR0` is
seen to toggle at least `POR_DELAY` times. -/
theorem PIC_Init_leaves_pins_high_impedance :
    (∀ (m m' : Machine) (t0 : Nat) (ts : List (Nat × Nat)), PIC_Init m t0 ts = some m' →
      m'.gTRISGPIO = 0b11111111 ∧ m'.TRISGPIO = 0b11111111 ∧ m'.GPIO = 0 ∧
      allHighZ m'.TRISGPIO = true ∧ numOutputs m'.TRISGPIO = 0 ∧
      (∀ i, i < 6 → drives i m' = false) ∧ numForward m'.TRISGPIO m'.GPIO = 0) ∧
    (∀ (m e : Machine) (t0 : Nat) (delay : List (Nat × Nat)) (t : Nat),
      main m t0 delay t [] = some e →
      e.gTRISGPIO = 0b11111111 ∧ e.TRISGPIO = 0b11111111 ∧ e.GPIO = 0 ∧
      (∀ i, i < 6 → drives i e = false)) ∧
    (∀ (m : Machine) (t0 : Nat) (ts : List (Nat × Nat)),
      POR_DELAY ≤ togglesSeen t0 ts → ∃ m', PIC_Init m t0 ts = some m') ∧
    (∀ (m : Machine) (t0 : Nat) (ts : List (Nat × Nat)),
      togglesSeen t0 ts < POR_DELAY → PIC_Init m t0 ts = none) := by
  have hz : allHighZ 0b11111111 = true := by decide
  refine ⟨?_, ?_, ?_, ?_⟩
  · intro m m' t0 ts h
    obtain ⟨a, b, c, -⟩ := PIC_Init_result m m' t0 ts h
    obtain ⟨x, y, z⟩ := highZ_no_drive 0b11111111 0 hz
    simp only [drives]
    rw [a, b, c]
    exact ⟨rfl, rfl, rfl, hz, x, y, z⟩
  · intro m e t0 delay t h
    obtain ⟨-, -, -, -, a, b, c⟩ := main_entry_state m e t0 delay t h
    obtain ⟨-, y, -⟩ := highZ_no_drive 0b11111111 0 hz
    simp only [drives]
    rw [a, b, c]
    exact ⟨rfl, rfl, rfl, y⟩
  · intro m t0 ts h
    exact PIC_Init_returns m t0 ts h
  · intro m t0 ts h
    unfold PIC_Init
    have : PIC_delay { setOption m 0b11010101 with gTMR0_MSB := t0, gPause := POR_DELAY } ts
        = none :=
      PIC_delay_none ts _ (show POR_DELAY < 256 by decide) h
    simp only [this]

/-- Witness of claim C13: from the power-on state, 61 passes in which bit 7 of
`TMR0` toggles let `PIC_Init` return, with all pins inputs; 60 do not. -/
theorem PIC_Init_power_on_example :
    (∃ m', PIC_Init (powerOn 0) 0 (toggling 61) = some m' ∧
      m'.gTRISGPIO = 0b11111111 ∧ m'.TRISGPIO = 0b11111111 ∧ m'.GPIO = 0) ∧
    PIC_Init (powerOn 0) 0 (toggling 60) = none := by
  obtain ⟨m', h⟩ := PIC_Init_leaves_pins_high_impedance.2.2.1 (powerOn 0) 0 (toggling 61)
    (by decide)
  obtain ⟨a, b, c, -⟩ := PIC_Init_leaves_pins_high_impedance.1 _ m' _ _ h
  exact ⟨⟨m', h, a, b, c⟩, by decide⟩

/-! ## Single writer of the mask -/

theorem main_tick_gLEDs (m : Machine) (t1 t2 : Nat) :
    (main_tick m t1 t2).gLEDs =
      if detectsTick m t1 = true ∧ (m.gPause + 255) % 256 = 0 then main_animate m.gLEDs
      else m.gLEDs := by
  cases hd : detectsTick m t1
  · rw [main_tick_no_tick m t1 t2 hd]
    simp
  · rw [main_tick_on_tick m t1 t2 hd]
    split <;> simp [*]

/-- Claim C14. The mask has a single writer.  `LED_refresh` leaves `gLEDs`
unchanged for every pre-state, and also `gPause` and `gTMR0_MSB`; `PIC_Init`
and the statements of `main` before the loop leave `gLEDs` unchanged; the only
change of `gLEDs` in a pass of the process loop is the animator's step, taken
when a tick is detected and the countdown `gPause` reaches zero. -/
theorem mask_has_single_writer :
    (∀ m : Machine, (LED_refresh m).gLEDs = m.gLEDs ∧ (LED_refresh m).gPause = m.gPause ∧
      (LED_refresh m).gTMR0_MSB = m.gTMR0_MSB) ∧
    (∀ (k : Nat) (m : Machine), (refreshN k m).gLEDs = m.gLEDs) ∧
    (∀ (m m' : Machine) (t0 : Nat) (ts : List (Nat × Nat)),
      PIC_Init m t0 ts = some m' → m'.gLEDs = m.gLEDs) ∧
    (∀ (m e : Machine) (t0 : Nat) (delay : List (Nat × Nat)) (t : Nat),
      main m t0 delay t [] = some e → e.gLEDs = m.gLEDs) ∧
    (∀ (m : Machine) (t : Nat × Nat),
      (main_iter m t).gLEDs =
        if detectsTick m t.1 = true ∧ (m.gPause + 255) % 256 = 0 then main_animate m.gLEDs
        else m.gLEDs) := by
  refine ⟨?_, refreshN_gLEDs, ?_, ?_, ?_⟩
  · intro m
    obtain ⟨a, b, c, -⟩ := LED_refresh_frame m
    exact ⟨a, b, c⟩
  · intro m m' t0 ts h
    exact (PIC_Init_frame m m' t0 ts h).1
  · intro m e t0 delay t h
    exact (main_entry_state m e t0 delay t h).1
  · intro m t
    obtain ⟨a, b, -, -⟩ := LED_refresh_frame m
    unfold main_iter
    rw [main_tick_gLEDs, detectsTick_refresh, a, b]

/-- Witness of claim C14: with mask `0b000101` a call of `LED_refresh`, a pass
without tick and a pass with a tick that does not end the countdown all keep
the mask; from `gPause = 1` a pass with a tick steps it to `0b001010`. -/
theorem mask_has_single_writer_example :
    (LED_refresh scenario).gLEDs = 0b000101 ∧
    (main_iter { scenario with gPause := 64 } (0x00, 0x00)).gLEDs = 0b000101 ∧
    (main_iter { scenario with gPause := 64 } (0x80, 0x80)).gLEDs = 0b000101 ∧
    (main_iter { scenario with gPause := 1 } (0x80, 0x80)).gLEDs = 0b001010 := by
  refine ⟨(mask_has_single_writer.1 scenario).1, by decide, by decide, by decide⟩

/-! ## Reachable masks -/

theorem main_animate_walking (g : Nat) (h : g ∈ walkingMasks) :
    main_animate g ∈ walkingMasks := by
  simp only [walkingMasks, List.mem_cons, List.mem_singleton, List.not_mem_nil, or_false] at h
  rcases h with rfl | rfl | rfl | rfl | rfl | rfl | rfl <;> decide

theorem main_loop_walking (ts : List (Nat × Nat)) :
    ∀ m : Machine, m.gLEDs ∈ walkingMasks → (main_loop m ts).gLEDs ∈ walkingMasks := by
  induction ts with
  | nil =>
    intro m h
    exact h
  | cons t ts ih =>
    intro m h
    have step : main_loop m (t :: ts) = main_loop (main_iter m t) ts := rfl
    rw [step]
    apply ih
    obtain ⟨a, b, -, -⟩ := LED_refresh_frame m
    unfold main_iter
    rw [main_tick_gLEDs, a]
    split
    · exact main_animate_walking _ h
    · exact h

/-- Whatever the samples of `TMR0` and however long `main` runs from the
power-on state, `gLEDs` is 0 or has a single bit set; in particular it is never
`0b000011`. -/
theorem only_walking_masks_reachable (gpio t0 : Nat) (delay : List (Nat × Nat)) (t : Nat)
    (loop : List (Nat × Nat)) (m' : Machine)
    (h : main (powerOn gpio) t0 delay t loop = some m') :
    m'.gLEDs ∈ walkingMasks ∧ m'.gLEDs ≠ 0b000011 := by
  obtain ⟨d, e, -, he, -, hl⟩ := main_entry _ m' _ _ _ _ h
  have h0 : e.gLEDs = 0 := (main_entry_state _ e _ _ _ he).1
  have hw : m'.gLEDs ∈ walkingMasks := by
    rw [hl]
    exact main_loop_walking loop e (by rw [h0]; decide)
  refine ⟨hw, ?_⟩
  intro h3
  rw [h3] at hw
  exact absurd hw (by decide)

/-- A sample that the test of line 217 takes for a tick exists in every state. -/
theorem tick_sample (m : Machine) : detectsTick m (m.gTMR0_MSB ^^^ 0x80) = true := by
  rw [detectsTick_iff, Nat.testBit_xor]
  cases m.gTMR0_MSB.testBit 7 <;> simp [Nat.testBit]

/-- Every number of ticks is detected on some sequence of samples. -/
theorem ticks_available (n : Nat) : ∀ m : Machine, ∃ ts, ticksDetected m ts = n := by
  induction n with
  | zero => exact fun _ => ⟨[], rfl⟩
  | succ n ih =>
    intro m
    obtain ⟨ts, hts⟩ := ih (main_iter m (m.gTMR0_MSB ^^^ 0x80, 0))
    refine ⟨(m.gTMR0_MSB ^^^ 0x80, 0) :: ts, ?_⟩
    simp only [ticksDetected, tick_sample, if_true, hts]
    omega

theorem main_loop_append (m : Machine) (a b : List (Nat × Nat)) :
    main_loop m (a ++ b) = main_loop (main_loop m a) b := by
  simp [main_loop, List.foldl_append]

/-- From a state with a full countdown the loop can take any number of steps
of the animator. -/
theorem steps_available (k : Nat) :
    ∀ e : Machine, e.gPause = 64 →
      ∃ ts, (main_loop e ts).gLEDs = animateN k e.gLEDs ∧ (main_loop e ts).gPause = 64 := by
  induction k with
  | zero => exact fun e h => ⟨[], rfl, h⟩
  | succ k ih =>
    intro e h
    obtain ⟨ts1, g1, p1⟩ := ih e h
    obtain ⟨ts2, h2⟩ := ticks_available 64 (main_loop e ts1)
    have key := (main_loop_countdown ts2 (main_loop e ts1) (by omega) (by omega)).2 (by omega)
    refine ⟨ts1 ++ ts2, ?_, ?_⟩
    · rw [main_loop_append, key.1, g1]
      rfl
    · rw [main_loop_append, key.2]
      rfl

theorem walkingMasks_orbit (w : Nat) (h : w ∈ walkingMasks) : ∃ k, animateN k 0 = w := by
  simp only [walkingMasks, List.mem_cons, List.mem_singleton, List.not_mem_nil, or_false] at h
  rcases h with rfl | rfl | rfl | rfl | rfl | rfl | rfl
  · exact ⟨0, by decide⟩
  · exact ⟨1, by decide⟩
  · exact ⟨2, by decide⟩
  · exact ⟨3, by decide⟩
  · exact ⟨4, by decide⟩
  · exact ⟨5, by decide⟩
  · exact ⟨6, by decide⟩

theorem main_of_init (m d : Machine) (t0 : Nat) (delay : List (Nat × Nat)) (t : Nat)
    (loop : List (Nat × Nat)) (hd : PIC_Init m t0 delay = some d) :
    main m t0 delay t loop
      = some (main_loop { d with gTMR0_MSB := t, gPause := LED_STEP_DELAY } loop) := by
  unfold main
  rw [hd]

theorem walking_mask_reached (gpio w : Nat) (h : w ∈ walkingMasks) :
    ∃ t0 delay t loop m', main (powerOn gpio) t0 delay t loop = some m' ∧ m'.gLEDs = w := by
  obtain ⟨k, hk⟩ := walkingMasks_orbit w h
  have hdel : POR_DELAY ≤ togglesSeen 0 (toggling 61) := by decide
  obtain ⟨d, hd⟩ := PIC_Init_returns (powerOn gpio) 0 (toggling 61) hdel
  obtain ⟨a, -, -⟩ := PIC_Init_frame (powerOn gpio) d 0 (toggling 61) hd
  have a0 : d.gLEDs = 0 := a
  obtain ⟨ts, g, -⟩ :=
    steps_available k { d with gTMR0_MSB := 0, gPause := LED_STEP_DELAY } rfl
  exact ⟨0, toggling 61, 0, ts, _, main_of_init (powerOn gpio) d 0 (toggling 61) 0 ts hd,
    by rw [g]; show animateN k d.gLEDs = w; rw [a0, hk]⟩

/-- Counterexample to claim C15: the combination `0b000011` (LED0 and LED1
together) is the mask of no reachable state of `main` started from power-on, so
not every one of the 64 subsets is reached. -/
theorem combination_LED0_LED1_never_reached :
    (0b000011 < 64 ∧
      ∀ (gpio t0 : Nat) (delay : List (Nat × Nat)) (t : Nat) (loop : List (Nat × Nat))
        (m' : Machine), main (powerOn gpio) t0 delay t loop = some m' →
          m'.gLEDs ≠ 0b000011) ∧
    ¬ (∀ w, w < 64 →
        ∃ (gpio t0 : Nat) (delay : List (Nat × Nat)) (t : Nat) (loop : List (Nat × Nat))
          (m' : Machine), main (powerOn gpio) t0 delay t loop = some m' ∧ m'.gLEDs = w) := by
  have h3 : ∀ (gpio t0 : Nat) (delay : List (Nat × Nat)) (t : Nat) (loop : List (Nat × Nat))
      (m' : Machine), main (powerOn gpio) t0 delay t loop = some m' → m'.gLEDs ≠ 0b000011 :=
    fun gpio t0 delay t loop m' h => (only_walking_masks_reachable gpio t0 delay t loop m' h).2
  refine ⟨⟨by decide, h3⟩, ?_⟩
  intro hall
  obtain ⟨gpio, t0, delay, t, loop, m', h, e⟩ := hall 0b000011 (by decide)
  exact h3 gpio t0 delay t loop m' h e

/-- Claim C15, amended. The application requests the LEDs one at a time: for
each of the seven masks with at most one bit set (0 and the six single-LED
masks) there is a reachable state of the process loop of `main`, started from
power-on, in which `gLEDs` equals it, and `gLEDs` equals none of the other 57
masks in any reachable state. -/
theorem exactly_the_walking_masks_are_reached :
    walkingMasks = [0, 0b000001, 0b000010, 0b000100, 0b001000, 0b010000, 0b100000] ∧
    (∀ gpio w, w ∈ walkingMasks →
      ∃ t0 delay t loop m', main (powerOn gpio) t0 delay t loop = some m' ∧ m'.gLEDs = w) ∧
    (∀ (gpio t0 : Nat) (delay : List (Nat × Nat)) (t : Nat) (loop : List (Nat × Nat))
        (m' : Machine), main (powerOn gpio) t0 delay t loop = some m' →
      m'.gLEDs ∈ walkingMasks) ∧
    (∀ w, w ∉ walkingMasks →
      ∀ (gpio t0 : Nat) (delay : List (Nat × Nat)) (t : Nat) (loop : List (Nat × Nat))
        (m' : Machine), main (powerOn gpio) t0 delay t loop = some m' → m'.gLEDs ≠ w) ∧
    ((List.range 64).filter (fun w => decide (w ∉ walkingMasks))).length = 57 := by
  refine ⟨rfl, walking_mask_reached, ?_, ?_, by decide⟩
  · intro gpio t0 delay t loop m' h
    exact (only_walking_masks_reachable gpio t0 delay t loop m' h).1
  · intro w hw gpio t0 delay t loop m' h e
    exact hw (e ▸ (only_walking_masks_reachable gpio t0 delay t loop m' h).1)

/-- Witness of claim C15 (amended): a run of 130 passes that each detect a tick
ends with a mask that has at most one bit set, and the mask `0b000100` is
reached on some run. -/
theorem only_walking_masks_example :
    (∃ m', main (powerOn 0) 0 (toggling 61) 0 (toggling 130) = some m' ∧
      m'.gLEDs ∈ walkingMasks) ∧
    (∃ t0 delay t loop m', main (powerOn 0) t0 delay t loop = some m' ∧
      m'.gLEDs = 0b000100) := by
  have hI : (PIC_Init (powerOn 0) 0 (toggling 61)).isSome = true := by decide
  have hM : (main (powerOn 0) 0 (toggling 61) 0 (toggling 130)).isSome = true := by
    unfold main
    revert hI
    cases PIC_Init (powerOn 0) 0 (toggling 61) <;> simp
  obtain ⟨b, hb⟩ := Option.isSome_iff_exists.1 hM
  exact ⟨⟨b, hb, exactly_the_walking_masks_are_reached.2.2.1 0 0 (toggling 61) 0
      (toggling 130) b hb⟩,
    exactly_the_walking_masks_are_reached.2.1 0 0b000100 (by decide)⟩

/-! ## Pins outside the charlieplex -/

/-- With both reads of `GPIO` returning the latch (the embedding `LED_refresh`),
for every mask, slot counter and pre-state, and for each of the bits 0, 1, 3,
6 and 7: the bit of `GPIO` after the call is the bit of `GPIO` before it, and
the bit of `gTRISGPIO` and of `TRISGPIO` after the call is the bit of
`gTRISGPIO` before it; the same holds after each single write of the call. -/
theorem refresh_touches_only_GP2_GP4_GP5 (m : Machine) (p : Nat)
    (hp : p ∈ [0, 1, 3, 6, 7]) :
    ((Machine.GPIO (LED_refresh m)).testBit p = m.GPIO.testBit p ∧
      (Machine.gTRISGPIO (LED_refresh m)).testBit p = m.gTRISGPIO.testBit p ∧
      (Machine.TRISGPIO (LED_refresh m)).testBit p = m.gTRISGPIO.testBit p) ∧
    (∀ e ∈ LED_events m,
      e.GPIO.testBit p = m.GPIO.testBit p ∧ e.gTRISGPIO.testBit p = m.gTRISGPIO.testBit p ∧
      e.TRISGPIO.testBit p = m.gTRISGPIO.testBit p) ∧
    (inSync m → (Machine.TRISGPIO (LED_refresh m)).testBit p = m.TRISGPIO.testBit p) := by
  have hb := testedBit_lt m.State
  have main3 : ((Machine.GPIO (LED_refresh m)).testBit p = m.GPIO.testBit p ∧
      (Machine.gTRISGPIO (LED_refresh m)).testBit p = m.gTRISGPIO.testBit p ∧
      (Machine.TRISGPIO (LED_refresh m)).testBit p = m.gTRISGPIO.testBit p) ∧
    (∀ e ∈ LED_events m,
      e.GPIO.testBit p = m.GPIO.testBit p ∧ e.gTRISGPIO.testBit p = m.gTRISGPIO.testBit p ∧
      e.TRISGPIO.testBit p = m.gTRISGPIO.testBit p) := by
    simp only [List.mem_cons, List.mem_singleton, List.not_mem_nil, or_false] at hp
    cases hg : m.gLEDs.testBit (testedBit m.State)
    · rw [LED_events_idle m hg, LED_refresh_idle m hg, LED_drive_idle]
      rcases hp with rfl | rfl | rfl | rfl | rfl <;>
        simp only [Nat.testBit_or, List.mem_singleton, forall_eq] <;>
        simp [Nat.testBit]
    · rw [LED_events_lit m hg, LED_refresh_lit m hg,
        LED_drive_lit _ _ _ (outBits_ne_zero _ hb)]
      generalize testedBit m.State = b at hb hg ⊢
      interval_cases b <;> rcases hp with rfl | rfl | rfl | rfl | rfl <;>
        simp only [anode, cathode, Nat.testBit_and, Nat.testBit_or, List.mem_cons,
          List.mem_singleton, forall_eq_or_imp, forall_eq] <;>
        simp [Nat.testBit]
  refine ⟨main3.1, main3.2, ?_⟩
  intro hs
  rw [main3.1.2.2, hs]

/-- Example with both reads returning the latch: bit 0 in a lit slot, with
`GPIO = 0b00000001` and `gTRISGPIO = TRISGPIO = 0b11111110` before the call (GP0
an output at 1): LED0 is driven and GP0 is still an output at 1. -/
theorem refresh_keeps_GP0_example :
    (0 ∈ [0, 1, 3, 6, 7]) ∧ inSync busyGP0 ∧
    (Machine.GPIO (LED_refresh busyGP0)).testBit 0 = true ∧
    (Machine.TRISGPIO (LED_refresh busyGP0)).testBit 0 = false ∧
    drives 0 (LED_refresh busyGP0) = true := by
  have t := refresh_touches_only_GP2_GP4_GP5 busyGP0 0 (by decide)
  have hs : inSync busyGP0 := rfl
  refine ⟨by decide, hs, ?_, ?_, by decide⟩
  · rw [t.1.1]
    decide
  · rw [t.2.2 hs]
    decide

theorem LED_drive_port_lit (m : Machine) (O H r1 r2 : Nat) (h : O ≠ 0) :
    LED_drive_port m O H r1 r2 =
      { m with
        gTRISGPIO := (m.gTRISGPIO ||| 0x34) &&& O
        TRISGPIO := (m.gTRISGPIO ||| 0x34) &&& O
        GPIO := r2 ||| H
        trace := m.trace ++
          [{ reg := Reg.TRISGPIO, TRISGPIO := m.gTRISGPIO ||| 0x34, GPIO := m.GPIO,
             gTRISGPIO := m.gTRISGPIO ||| 0x34 },
           { reg := Reg.GPIO, TRISGPIO := m.gTRISGPIO ||| 0x34, GPIO := r1 &&& O,
             gTRISGPIO := m.gTRISGPIO ||| 0x34 },
           { reg := Reg.TRISGPIO, TRISGPIO := (m.gTRISGPIO ||| 0x34) &&& O,
             GPIO := r1 &&& O, gTRISGPIO := (m.gTRISGPIO ||| 0x34) &&& O },
           { reg := Reg.GPIO, TRISGPIO := (m.gTRISGPIO ||| 0x34) &&& O,
             GPIO := r2 ||| H, gTRISGPIO := (m.gTRISGPIO ||| 0x34) &&& O }] } := by
  simp [LED_drive_port, setTris, setGpio, h]

theorem LED_drive_port_idle (m : Machine) (H r1 r2 : Nat) :
    LED_drive_port m 0 H r1 r2 = LED_drive m 0 H := by
  simp [LED_drive_port, LED_drive, setTris]

/-- The embedding `LED_drive` is `LED_drive_port` with both reads returning the
latch. -/
theorem LED_drive_port_latch (m : Machine) (O H : Nat) :
    LED_drive_port m O H m.GPIO (m.GPIO &&& O) = LED_drive m O H := by
  by_cases h : O = 0
  · subst h
    exact LED_drive_port_idle m H _ _
  · simp [LED_drive_port, LED_drive, setTris, setGpio, h]

theorem LED_refresh_port_lit (m : Machine) (r1 r2 : Nat)
    (h : m.gLEDs.testBit (testedBit m.State) = true) :
    LED_refresh_port m r1 r2 =
      LED_drive_port { m with State := if testedBit m.State = 0 then 6 else testedBit m.State }
        (255 - (2 ^ anode (testedBit m.State) + 2 ^ cathode (testedBit m.State)))
        (2 ^ anode (testedBit m.State)) r1 r2 := by
  unfold LED_refresh_port
  rw [LED_switch_eq, if_pos h]

theorem LED_refresh_port_idle (m : Machine) (r1 r2 : Nat)
    (h : m.gLEDs.testBit (testedBit m.State) = false) :
    LED_refresh_port m r1 r2 = LED_refresh m := by
  unfold LED_refresh_port
  rw [LED_refresh_idle m h, LED_switch_eq, if_neg (by simp [h]), LED_drive_port_idle]

/-- Counterexample to claim C16: GP0 is an input held high from outside and
its latch bit is 0; the lit slot of bit 0 reads the port as `0b00000001` twice
and leaves bit 0 of the `GPIO` latch at 1. -/
theorem latch_bit_of_input_pin_changes :
    inputGP0.TRISGPIO.testBit 0 = true ∧ inputGP0.GPIO.testBit 0 = false ∧
    inputGP0.gLEDs.testBit (testedBit inputGP0.State) = true ∧
    (Machine.GPIO (LED_refresh_port inputGP0 0b00000001 0b00000001)).testBit 0 = true ∧
    (Machine.GPIO (LED_refresh_port inputGP0 0b00000001 0b00000001)).testBit 0
      ≠ inputGP0.GPIO.testBit 0 := by
  decide

/-- Claim C16, amended. `LED_refresh` changes the direction of the three
controlled pins only: for every mask, slot counter and pre-state, whatever the
port reads return, and for each of the bits 0, 1, 3, 6 and 7, the bit of
`gTRISGPIO` and of every value written to `TRISGPIO` is the bit of `gTRISGPIO`
before the call, hence the bit of `TRISGPIO` before the call when the register
held the value of its shadow.  The bit of the `GPIO` latch is unchanged in an
idle slot; in a lit slot it becomes the bit that the port read of line 171
returns, so it is unchanged when that read returns the latch bit (as for a
pin driven as an output) and takes the outside level of a pin that is an
input.  With both reads returning the latch the call is `LED_refresh`. -/
theorem refresh_keeps_direction_of_other_pins (m : Machine) (r1 r2 p : Nat)
    (hp : p ∈ [0, 1, 3, 6, 7]) :
    ((Machine.gTRISGPIO (LED_refresh_port m r1 r2)).testBit p = m.gTRISGPIO.testBit p ∧
      (Machine.TRISGPIO (LED_refresh_port m r1 r2)).testBit p = m.gTRISGPIO.testBit p) ∧
    (∀ e ∈ LED_events_port m r1 r2,
      e.gTRISGPIO.testBit p = m.gTRISGPIO.testBit p ∧
      e.TRISGPIO.testBit p = m.gTRISGPIO.testBit p) ∧
    (inSync m →
      (Machine.TRISGPIO (LED_refresh_port m r1 r2)).testBit p = m.TRISGPIO.testBit p) ∧
    (m.gLEDs.testBit (testedBit m.State) = false →
      Machine.GPIO (LED_refresh_port m r1 r2) = m.GPIO) ∧
    (m.gLEDs.testBit (testedBit m.State) = true →
      (Machine.GPIO (LED_refresh_port m r1 r2)).testBit p = r2.testBit p) ∧
    (r2.testBit p = m.GPIO.testBit p →
      (Machine.GPIO (LED_refresh_port m r1 r2)).testBit p = m.GPIO.testBit p) ∧
    LED_refresh_port m m.GPIO (m.GPIO &&& (LED_switch m.gLEDs m.State).OutBits)
      = LED_refresh m := by
  have hb := testedBit_lt m.State
  simp only [List.mem_cons, List.mem_singleton, List.not_mem_nil, or_false] at hp
  have dir : ((Machine.gTRISGPIO (LED_refresh_port m r1 r2)).testBit p
        = m.gTRISGPIO.testBit p ∧
      (Machine.TRISGPIO (LED_refresh_port m r1 r2)).testBit p = m.gTRISGPIO.testBit p) ∧
    (∀ e ∈ LED_events_port m r1 r2,
      e.gTRISGPIO.testBit p = m.gTRISGPIO.testBit p ∧
      e.TRISGPIO.testBit p = m.gTRISGPIO.testBit p) := by
    unfold LED_events_port
    cases hg : m.gLEDs.testBit (testedBit m.State)
    · rw [LED_refresh_port_idle m r1 r2 hg, LED_refresh_idle m hg, LED_drive_idle]
      rcases hp with rfl | rfl | rfl | rfl | rfl <;>
        simp only [Nat.testBit_or, List.drop_left, List.mem_singleton, forall_eq] <;>
        simp [Nat.testBit]
    · rw [LED_refresh_port_lit m r1 r2 hg, LED_drive_port_lit _ _ _ _ _ (outBits_ne_zero _ hb)]
      generalize testedBit m.State = b at hb hg ⊢
      interval_cases b <;> rcases hp with rfl | rfl | rfl | rfl | rfl <;>
        simp only [anode, cathode, Nat.testBit_and, Nat.testBit_or, List.drop_left,
          List.mem_cons, List.mem_singleton, forall_eq_or_imp, forall_eq] <;>
        simp [Nat.testBit]
  have idle : m.gLEDs.testBit (testedBit m.State) = false →
      Machine.GPIO (LED_refresh_port m r1 r2) = m.GPIO := by
    intro hg
    rw [LED_refresh_port_idle m r1 r2 hg, LED_refresh_idle m hg, LED_drive_idle]
  have lit : m.gLEDs.testBit (testedBit m.State) = true →
      (Machine.GPIO (LED_refresh_port m r1 r2)).testBit p = r2.testBit p := by
    intro hg
    rw [LED_refresh_port_lit m r1 r2 hg, LED_drive_port_lit _ _ _ _ _ (outBits_ne_zero _ hb)]
    generalize testedBit m.State = b at hb hg ⊢
    interval_cases b <;> rcases hp with rfl | rfl | rfl | rfl | rfl <;>
      simp only [anode, Nat.testBit_or] <;>
      simp [Nat.testBit]
  refine ⟨dir.1, dir.2, ?_, idle, lit, ?_, ?_⟩
  · intro hs
    rw [dir.1.2, hs]
  · intro h2
    cases hg : m.gLEDs.testBit (testedBit m.State)
    · rw [idle hg]
    · rw [lit hg, h2]
  · unfold LED_refresh_port LED_refresh
    exact LED_drive_port_latch _ _ _

/-- Witness of claim C16 (amended): GP0 is an output at 1 and reads back 1; after
the lit slot of bit 0 it is still an output and its latch bit is still 1. -/
theorem refresh_keeps_direction_example :
    (0 ∈ [0, 1, 3, 6, 7]) ∧ inSync busyGP0 ∧
    (Machine.TRISGPIO (LED_refresh_port busyGP0 0b00000001 0b00000001)).testBit 0 = false ∧
    (Machine.GPIO (LED_refresh_port busyGP0 0b00000001 0b00000001)).testBit 0 = true ∧
    drives 0 (LED_refresh_port busyGP0 0b00000001 0b00000001) = true := by
  have t := refresh_keeps_direction_of_other_pins busyGP0 0b00000001 0b00000001 0 (by decide)
  have hs : inSync busyGP0 := rfl
  refine ⟨by decide, hs, ?_, ?_, by decide⟩
  · rw [t.2.2.1 hs]
    decide
  · rw [t.2.2.2.2.2.1 (by decide)]
    decide

/-- The LED driven at the end of a call, with the port reads as inputs: it is
the LED of the tested bit, when that bit is requested and the read of line 171
returns 0 for its cathode pin, which the call has just made an output at 0. -/
theorem LED_refresh_port_driven (m : Machine) (r1 r2 i : Nat) (hi : i < 6) :
    drives i (LED_refresh_port m r1 r2) = true
      ↔ (i = testedBit m.State ∧ m.gLEDs.testBit i = true ∧
          r2.testBit (cathode i) = false) := by
  have hb := testedBit_lt m.State
  cases hg : m.gLEDs.testBit (testedBit m.State)
  · rw [LED_refresh_port_idle m r1 r2 hg, LED_refresh_driven m i hi]
    constructor
    · rintro ⟨rfl, h⟩
      simp [hg] at h
    · rintro ⟨rfl, h, -⟩
      simp [hg] at h
  · rw [LED_refresh_port_lit m r1 r2 hg, LED_drive_port_lit _ _ _ _ _ (outBits_ne_zero _ hb)]
    generalize testedBit m.State = b at hb hg ⊢
    interval_cases b <;> interval_cases i <;>
      simp only [drives, LEDdriven, isOutput, anode, cathode, sparePin, Nat.testBit_and,
        Nat.testBit_or, hg] <;>
      simp [Nat.testBit]

/-! ## Multi-bit masks, the wiring table and the power-on delay -/

theorem animateN_add (j k g : Nat) : animateN (j + k) g = animateN j (animateN k g) := by
  induction j with
  | zero => simp [animateN]
  | succ j ih => rw [Nat.succ_add, animateN, animateN, ih]

theorem animate_single_bit (p : Nat) (hp : p < 6) :
    ∃ q, q < 6 ∧ main_animate (2 ^ p) = 2 ^ q := by
  interval_cases p
  · exact ⟨1, by decide, by decide⟩
  · exact ⟨2, by decide, by decide⟩
  · exact ⟨3, by decide, by decide⟩
  · exact ⟨4, by decide, by decide⟩
  · exact ⟨5, by decide, by decide⟩
  · exact ⟨0, by decide, by decide⟩

theorem animateN_single_bit (j p : Nat) (hp : p < 6) :
    ∃ q, q < 6 ∧ animateN j (2 ^ p) = 2 ^ q := by
  induction j with
  | zero => exact ⟨p, hp, rfl⟩
  | succ j ih =>
    obtain ⟨q, hq, e⟩ := ih
    obtain ⟨r, hr, e'⟩ := animate_single_bit q hq
    exact ⟨r, hr, by rw [animateN, e, e']⟩

theorem six_steps_lowest_bit (m : Nat) (h1 : 1 ≤ m) (h64 : m < 64) :
    animateN 6 m = lowestSetBit m ∧
    ∃ p, p < 6 ∧ m.testBit p = true ∧ (∀ q, q < p → m.testBit q = false) ∧
      animateN 6 m = 2 ^ p := by
  interval_cases m <;> exact ⟨by decide, by decide⟩

/-- Claim C17. Multi-bit patterns do not survive the animator: for every
non-zero 6-bit mask `m`, six steps yield exactly the lowest set bit of `m`
(`m AND -m`, the power of two of the least `p` with bit `p` of `m` set), every
later mask has exactly one bit set, and for `m = 0` one step yields
`0b000001`. -/
theorem six_steps_leave_lowest_bit :
    (∀ m, 1 ≤ m → m < 64 →
      animateN 6 m = lowestSetBit m ∧
      (∃ p, p < 6 ∧ m.testBit p = true ∧ (∀ q, q < p → m.testBit q = false) ∧
        animateN 6 m = 2 ^ p) ∧
      (∀ k, 6 ≤ k → ∃ q, q < 6 ∧ animateN k m = 2 ^ q)) ∧
    main_animate 0 = 0b000001 := by
  refine ⟨?_, by decide⟩
  intro m h1 h64
  obtain ⟨a, p, hp, b, c, d⟩ := six_steps_lowest_bit m h1 h64
  refine ⟨a, ⟨p, hp, b, c, d⟩, ?_⟩
  intro k hk
  obtain ⟨j, rfl⟩ : ∃ j, k = j + 6 := ⟨k - 6, by omega⟩
  rw [animateN_add, d]
  exact animateN_single_bit j p hp

/-- Witness of claim C17: the mask `0b101000` runs through 16, 32, 1, 2, 4 and
is at 8, its lowest set bit, after six steps; the seventh gives 16. -/
theorem six_steps_example :
    (List.range 8).map (fun k => animateN k 0b101000)
      = [0b101000, 0b010000, 0b100000, 0b000001, 0b000010, 0b000100, 0b001000, 0b010000] ∧
    animateN 6 0b101000 = lowestSetBit 0b101000 ∧ lowestSetBit 0b101000 = 0b001000 := by
  refine ⟨by decide, (six_steps_leave_lowest_bit.1 0b101000 (by decide) (by decide)).1,
    by decide⟩

/-- Claim C18. The wiring table of the `switch` of `LED_refresh`.  In a lit
slot the selection depends only on the bit tested.  For each of the six mask
bits exactly one controlled pin is written high, it is one of exactly two
pins made outputs, and the other output pin is the low pin.  The map from the
bit to the ordered pair (high pin, low pin) is one-to-one and reaches each of
the six ordered pairs of distinct pins from GP2, GP4, GP5; no two bits give the
same `OutBits` and `HighBits`. -/
theorem wiring_table_is_bijective :
    (∀ g s : Nat, g.testBit (testedBit s) = true →
      (LED_switch g s).OutBits = (wiringOf (testedBit s)).OutBits ∧
      (LED_switch g s).HighBits = (wiringOf (testedBit s)).HighBits) ∧
    (∀ b, b < 6 → testedBit (b + 1) = b) ∧
    (List.range 6).map (fun b => (highPins (wiringOf b), lowPins (wiringOf b)))
      = [([4], [2]), ([2], [4]), ([5], [4]), ([4], [5]), ([5], [2]), ([2], [5])] ∧
    (∀ b, b < 6 → ∃ h l, highPins (wiringOf b) = [h] ∧ lowPins (wiringOf b) = [l] ∧
      (h, l) ∈ orderedPairs ∧ h ∈ outputPins (wiringOf b) ∧
      (outputPins (wiringOf b)).length = 2) ∧
    (∀ a b, a < 6 → b < 6 →
      highPins (wiringOf a) = highPins (wiringOf b) →
      lowPins (wiringOf a) = lowPins (wiringOf b) → a = b) ∧
    (∀ a b, a < 6 → b < 6 →
      (wiringOf a).OutBits = (wiringOf b).OutBits →
      (wiringOf a).HighBits = (wiringOf b).HighBits → a = b) ∧
    (∀ pr, pr ∈ orderedPairs →
      ∃ b, b < 6 ∧ highPins (wiringOf b) = [pr.1] ∧ lowPins (wiringOf b) = [pr.2]) := by
  refine ⟨?_, ?_, by decide, ?_, ?_, ?_, ?_⟩
  · intro g s hg
    have hb := testedBit_lt s
    rw [LED_switch_eq, if_pos hg]
    generalize testedBit s = b at hb
    interval_cases b <;> decide
  · intro b hb
    interval_cases b <;> rfl
  · intro b hb
    interval_cases b
    · exact ⟨4, 2, by decide⟩
    · exact ⟨2, 4, by decide⟩
    · exact ⟨5, 4, by decide⟩
    · exact ⟨4, 5, by decide⟩
    · exact ⟨5, 2, by decide⟩
    · exact ⟨2, 5, by decide⟩
  · intro a b ha hb
    interval_cases a <;> interval_cases b <;> decide
  · intro a b ha hb
    interval_cases a <;> interval_cases b <;> decide
  · intro pr hpr
    simp only [orderedPairs, List.mem_cons, List.mem_singleton, List.not_mem_nil,
      or_false] at hpr
    rcases hpr with rfl | rfl | rfl | rfl | rfl | rfl
    · exact ⟨1, by decide⟩
    · exact ⟨5, by decide⟩
    · exact ⟨0, by decide⟩
    · exact ⟨3, by decide⟩
    · exact ⟨4, by decide⟩
    · exact ⟨2, by decide⟩

/-- Witness of claim C18: with the mask `0b111111` the slot of bit 3 (stored
counter 4) selects what the table gives for bit 3: GP4 high, GP5 low. -/
theorem wiring_table_example :
    (LED_switch 0b111111 4).OutBits = (wiringOf 3).OutBits ∧
    (LED_switch 0b111111 4).HighBits = (wiringOf 3).HighBits ∧
    highPins (wiringOf 3) = [4] ∧ lowPins (wiringOf 3) = [5] := by
  obtain ⟨a, b⟩ := wiring_table_is_bijective.1 0b111111 4 (by decide)
  exact ⟨a, b, by decide, by decide⟩

/-- Claim C19. With `FSYS = 4000000` the count `POR_DELAY` is 61 by integer
division; it lies in 1..255, so neither branch of the range check applies and
it fits the byte `gPause`.  The delay, 61 toggles of bit 7 of `TMR0` of
128 x 64 instruction cycles each, is 499712 cycles at 1000000 cycles per
second, within 1% of half a second.  `PIC_Init` returns exactly when 61
toggles have been seen. -/
theorem POR_DELAY_is_61 :
    FSYS = 4000000 ∧ FCYC = 1000000 ∧ POR_DELAY_unchecked = 61 ∧ POR_DELAY = 61 ∧
    ¬ (POR_DELAY_unchecked ≥ 256) ∧ ¬ (POR_DELAY_unchecked < 1) ∧
    1 ≤ POR_DELAY ∧ POR_DELAY ≤ 255 ∧ POR_DELAY % 256 = POR_DELAY ∧
    POR_DELAY * (TIMER0_COUNTS_UNTIL_ASSERT * TIMER0_PRESCALE) = 499712 ∧
    100 * (FCYC / 2 - POR_DELAY * (TIMER0_COUNTS_UNTIL_ASSERT * TIMER0_PRESCALE)) ≤ FCYC / 2 ∧
    POR_DELAY * (TIMER0_COUNTS_UNTIL_ASSERT * TIMER0_PRESCALE) ≤ FCYC / 2 ∧
    (∀ (m : Machine) (t0 : Nat) (ts : List (Nat × Nat)),
      (∃ m', PIC_Init m t0 ts = some m') ↔ 61 ≤ togglesSeen t0 ts) := by
  refine ⟨rfl, by decide, by decide, by decide, by decide, by decide, by decide, by decide,
    by decide, by decide, by decide, by decide, ?_⟩
  intro m t0 ts
  have h61 : POR_DELAY = 61 := by decide
  constructor
  · rintro ⟨m', h⟩
    by_contra hn
    have hlt : togglesSeen t0 ts < POR_DELAY := by omega
    have hnone : PIC_Init m t0 ts = none := by
      unfold PIC_Init
      have : PIC_delay { setOption m 0b11010101 with gTMR0_MSB := t0, gPause := POR_DELAY } ts
          = none :=
        PIC_delay_none ts _ (show POR_DELAY < 256 by decide) hlt
      simp only [this]
    rw [hnone] at h
    cases h
  · intro h
    exact PIC_Init_returns m t0 ts (by omega)

end Charlieplex
